import Mathlib

/-!
Verification of the configen type-compatibility classifier and parameter
descriptor builder (src/configen/configen.py, src/configen/utils.py).

The Python runtime type expressions that `is_incompatible` walks are embedded
as the inductive `Ty`.  Python exceptions are modelled by `Except PyErr`:
`ValidationError` (raised by the OmegaConf structured-config check) and
`TypeError` (raised by `issubclass` when its first argument is not a class,
e.g. a parameterized generic alias).  Runtime default values are embedded as
`PyVal`.  Each definition carries a reference to the source lines it embeds.
-/

/-- A value allowed inside a `Literal[...]` type: Python literal types carry
int, str or bool members (configen only ever inspects their runtime types). -/
inductive LitVal where
  | i (n : Int)
  | s (v : String)
  | b (v : Bool)
deriving DecidableEq, Repr

/-- Embedding of the Python type expressions reaching `is_incompatible`
(configen.py line 103) and `type_str` (utils.py line 41).

Class-like constructors (`intTy` ... `userClass`) stand for actual Python
classes; `listTy`/`dictTy`/`tupleTy`/`unionTy`/`callableTy`/`typeOfTy` stand
for parameterized `typing` aliases (`List[T]`, `Dict[K, V]`, `Tuple[...]`,
`Union[...]`, `Callable[[...], R]`, `Type[T]`), which are not classes.
`bareTuple`/`bareList`/`bareDict` are the unparameterized builtin classes.
An `Optional[T]` is, as in Python, the union `unionTy [T, noneType]`.
`structuredTy` is a structured-config class; its `legal` field encodes the
external OmegaConf grammar-acceptance oracle (`OmegaConf.structured` succeeds
on it iff `legal`).  `enumTy`, `structuredTy` and `userClass` carry the name
and defining module used by import bookkeeping and rendering. -/
inductive Ty where
  | noneType
  | anyTy
  | ellipsisTy
  | intTy
  | floatTy
  | strTy
  | boolTy
  | bytesTy
  | pathTy
  | enumTy (name module : String)
  | bareTuple
  | bareList
  | bareDict
  | listTy (elt : Ty)
  | dictTy (key value : Ty)
  | tupleTy (args : List Ty)
  | unionTy (members : List Ty)
  | literalTy (values : List LitVal)
  | callableTy (ins : List Ty) (out : Ty)
  | typeOfTy (arg : Ty)
  | structuredTy (name module : String) (legal : Bool)
  | userClass (name module : String)

/-- Python exceptions relevant to the classifier: `ValidationError` from
OmegaConf, and `TypeError` from `issubclass` on a non-class argument. -/
inductive PyErr where
  | typeError
  | validationError
deriving DecidableEq, Repr

/-- The Python identity test `x is NoneType` used on union members. -/
def Ty.is_none_type : Ty → Bool
  | .noneType => true
  | _ => false

/-- The Python identity test `arg is ...` (the Ellipsis object). -/
def Ty.is_ellipsis : Ty → Bool
  | .ellipsisTy => true
  | _ => false

/-- The Python equality test `type_ == str`. -/
def Ty.is_str : Ty → Bool
  | .strTy => true
  | _ => false

/-- The Python identity test `type_ is Any`. -/
def Ty.is_any : Ty → Bool
  | .anyTy => true
  | _ => false

/-- typing_inspect `is_callable_type`, as a discriminator on the embedding. -/
def Ty.is_callable : Ty → Bool
  | .callableTy _ _ => true
  | _ => false

theorem ty_sizeOf_pos (t : Ty) : 0 < sizeOf t := by
  cases t <;> simp_arith

theorem ty_list_sizeOf_pos (l : List Ty) : 0 < sizeOf l := by
  cases l <;> simp_arith

theorem sizeOf_filter_le (p : Ty → Bool) (l : List Ty) :
    sizeOf (l.filter p) ≤ sizeOf l := by
  induction l with
  | nil => simp
  | cons a l ih =>
    by_cases h : p a
    · simp only [List.filter_cons, h, if_true, List.cons.sizeOf_spec]
      omega
    · simp only [List.filter_cons, h, Bool.false_eq_true, if_false, List.cons.sizeOf_spec]
      omega

/-- omegaconf `_resolve_optional`: on a `Union`, strip `NoneType` members and
report whether any was present, collapsing a single survivor; `Any` and
`NoneType` themselves count as optional.  The empty-survivor branch is
`assert False` in Python (unreachable for Python-built unions, which have at
least two distinct members); it is totalized here with `unionTy []`. -/
def resolve_optional : Ty → Bool × Ty
  | .unionTy ms =>
    if ms.any Ty.is_none_type then
      match ms.filter (fun a => !a.is_none_type) with
      | [a] => (true, a)
      | [] => (true, .unionTy [])
      | args => (true, .unionTy args)
    else
      match ms with
      | [a] => (false, a)
      | [] => (false, .unionTy [])
      | _ => (false, .unionTy ms)
  | .anyTy => (true, .anyTy)
  | .noneType => (true, .noneType)
  | t => (false, t)

theorem sizeOf_resolve_optional (t : Ty) : sizeOf (resolve_optional t).2 ≤ sizeOf t := by
  unfold resolve_optional
  cases t
  case unionTy ms =>
    have hf := sizeOf_filter_le (fun a => !a.is_none_type) ms
    by_cases h : ms.any Ty.is_none_type
    · simp only [h, if_true]
      split
      · next a heq =>
        have ha : a ∈ ms.filter (fun a => !a.is_none_type) := by
          rw [heq]; exact List.mem_singleton_self a
        have := List.sizeOf_lt_of_mem (List.mem_of_mem_filter ha)
        simp only [Ty.unionTy.sizeOf_spec]
        omega
      · have := ty_list_sizeOf_pos ms
        simp only [Ty.unionTy.sizeOf_spec, List.nil.sizeOf_spec]
        omega
      · simp only [Ty.unionTy.sizeOf_spec]
        omega
    · simp only [h, Bool.false_eq_true, if_false]
      split
      · next a =>
        simp only [Ty.unionTy.sizeOf_spec, List.cons.sizeOf_spec, List.nil.sizeOf_spec]
        omega
      · simp
      · simp
  all_goals simp

/-- omegaconf `is_primitive_type_annotation`: true for int, float, bool, str,
bytes, `NoneType`, subclasses of `Enum`, and `pathlib.Path`. -/
def is_primitive_type_ann : Ty → Bool
  | .intTy | .floatTy | .boolTy | .strTy | .bytesTy | .noneType => true
  | .enumTy _ _ | .pathTy => true
  | _ => false

/-- typing_inspect `is_literal_type` (together with the
`get_origin(type_) is Literal` fallback, which recognizes the same values). -/
def is_literal_ty : Ty → Bool
  | .literalTy _ => true
  | _ => false

/-- typing_inspect `is_union_type`. -/
def is_union_ty : Ty → Bool
  | .unionTy _ => true
  | _ => false

/-- configen.py line 120, `issubclass(kvt[0], (str, Enum))`.  `issubclass`
demands a class as its first argument: on the non-class type expressions
(`Any`, `Ellipsis`, any parameterized generic alias, a `Literal`) it raises
`TypeError`.  (`Any` became a class only in Python 3.11; the target versions
raise on it.) -/
def issubclass_str_enum : Ty → Except PyErr Bool
  | .strTy => .ok true
  | .enumTy _ _ => .ok true
  | .intTy | .floatTy | .boolTy | .bytesTy | .noneType | .pathTy => .ok false
  | .bareTuple | .bareList | .bareDict => .ok false
  | .structuredTy _ _ _ => .ok false
  | .userClass _ _ => .ok false
  | _ => .error .typeError

/-- Modelled from the spec: the merging library's grammar-acceptance oracle,
`OmegaConf.structured(type_)` (configen.py line 149).  The external check is
opaque; its outcome is carried by the `legal` field of `Ty.structuredTy`, and
it raises `ValidationError` exactly when the record is rejected. -/
def omegaconf_structured (legal : Bool) : Except PyErr Unit :=
  if legal then .ok () else .error .validationError

mutual

/-- configen.py lines 103-156, `is_incompatible`.  `.ok false` means the type
is compatible with the target schema grammar, `.ok true` incompatible;
`.error` models an uncaught Python exception escaping the call. -/
def is_incompatible (t0 : Ty) : Except PyErr Bool :=
  -- line 104: `_, type_ = _resolve_optional(type_)`
  incompat_resolved (resolve_optional t0).2
termination_by 2 * sizeOf t0 + 1
decreasing_by
  have h := sizeOf_resolve_optional t0
  omega

/-- The body of `is_incompatible` after the optional resolution; each arm is
annotated with the source line whose guard selects it. -/
def incompat_resolved (t : Ty) : Except PyErr Bool :=
  match t with
  -- line 105: `type_ in (type(None), tuple, list, dict, Path)`
  | .noneType => .ok false
  | .bareTuple => .ok false
  | .bareList => .ok false
  | .bareDict => .ok false
  | .pathTy => .ok false
  -- line 109: `is_literal_type(type_) or get_origin(type_) is Literal`
  | .literalTy _ => .ok false
  -- line 113: `is_callable_type(type_)`
  | .callableTy _ _ => .ok true
  -- lines 115-117: `is_list_annotation(type_)`, recurse on the element type
  | .listTy e => is_incompatible e
  -- lines 118-122: `is_dict_annotation(type_)`; the key must be a str or Enum
  -- subclass, then recurse on the value type.  The `issubclass` call can
  -- raise `TypeError`, which the `except ValidationError` clause does not
  -- catch, so it propagates.
  | .dictTy k v =>
    match issubclass_str_enum k with
    | .error e => .error e
    | .ok false => .ok true
    | .ok true => is_incompatible v
  -- lines 123-124: `is_tuple_annotation(type_)`
  | .tupleTy args => tuple_any_incompat args
  -- lines 125-137: `is_union_annotation(type_)`; compatible iff every member
  -- is a primitive type annotation or a Literal (no recursion)
  | .unionTy ms =>
    .ok (ms.any fun a => !(is_primitive_type_ann a || is_literal_ty a))
  -- lines 138-141: `get_origin(type_) is type`
  | .typeOfTy a => is_incompatible a
  -- line 145: `type_ is Any or issubclass(type_, (int, float, str, bool, Enum))`
  | .anyTy => .ok false
  | .intTy => .ok false
  | .floatTy => .ok false
  | .strTy => .ok false
  | .boolTy => .ok false
  | .enumTy _ _ => .ok false
  -- line 145 on the Ellipsis object: `issubclass` raises `TypeError`
  | .ellipsisTy => .error .typeError
  -- line 156: bytes is not among `(int, float, str, bool, Enum)` and is not a
  -- structured config, so it falls through to incompatible
  | .bytesTy => .ok true
  -- lines 147-155: `is_structured_config(type_)`; `OmegaConf.structured` is
  -- attempted and a `ValidationError` is absorbed into incompatibility
  | .structuredTy _ _ legal =>
    match omegaconf_structured legal with
    | .ok _ => .ok false
    | .error .validationError => .ok true
    | .error e => .error e
  -- line 156: any other class is incompatible
  | .userClass _ _ => .ok true
termination_by 2 * sizeOf t
decreasing_by
  all_goals simp_arith

/-- configen.py line 124:
`any(arg is not ... and is_incompatible(arg) for arg in type_.__args__)`,
with the generator's left-to-right short-circuit evaluation (an exception in
a later element is not reached once an incompatible element is found). -/
def tuple_any_incompat : List Ty → Except PyErr Bool
  | [] => .ok false
  | a :: rest =>
    if a.is_ellipsis then tuple_any_incompat rest
    else
      match is_incompatible a with
      | .error e => .error e
      | .ok true => .ok true
      | .ok false => tuple_any_incompat rest
termination_by l => 2 * sizeOf l
decreasing_by
  all_goals simp_arith

end

/-- Abbreviation for the classifier verdict `False` (the type is usable). -/
def COMPATIBLE : Except PyErr Bool := .ok false

/-- Abbreviation for the classifier verdict `True` (the type is rejected). -/
def INCOMPATIBLE : Except PyErr Bool := .ok true

/-- A Python runtime value that can appear as a parameter default.  Floats
are carried by their rendered text (only their textual form is ever used).
`enumMember` carries the enum class name, the member name, the class's
defining module (`__module__`, always present on classes; the code's
defensive `getattr` guard at line 214 is therefore always taken) and the
repr of the member's value.  `other` is any other object, carried with its
class's name and module and its rendered `str` form. -/
inductive PyVal where
  | str (s : String)
  | int (n : Int)
  | float (rendered : String)
  | bool (b : Bool)
  | noneV
  | list (elems : List PyVal)
  | dict (pairs : List (PyVal × PyVal))
  | enumMember (enumName member enumModule valueRepr : String)
  | other (typeName typeModule rendered : String)

/-- Python `type(default_)`: the runtime class of a value. -/
def type_of_val : PyVal → Ty
  | .str _ => .strTy
  | .int _ => .intTy
  | .float _ => .floatTy
  | .bool _ => .boolTy
  | .noneV => .noneType
  | .list _ => .bareList
  | .dict _ => .bareDict
  | .enumMember en _ emod _ => .enumTy en emod
  | .other tn tmod _ => .userClass tn tmod

/-- Python `isinstance(default_, list)`. -/
def is_list_val : PyVal → Bool
  | .list _ => true
  | _ => false

/-- Python `isinstance(default_, dict)`. -/
def is_dict_val : PyVal → Bool
  | .dict _ => true
  | _ => false

mutual

/-- Python `str(value)` for the values a default can take.  Containers
render via the repr of their elements, an enum member via `EnumName.MEMBER`
(its `__str__`). -/
def py_str : PyVal → String
  | .str s => s
  | .int n => toString n
  | .float r => r
  | .bool b => if b then "True" else "False"
  | .noneV => "None"
  | .list xs => "[" ++ py_repr_elems xs ++ "]"
  | .dict ps => "\x7b" ++ py_repr_pairs ps ++ "\x7d"
  | .enumMember en m _ _ => en ++ "." ++ m
  | .other _ _ r => r

/-- Python `repr(value)`: as `str` except that strings are quote-wrapped and
an enum member renders as `<EnumName.MEMBER: value>`.  (Escaping inside
string reprs is not modelled; `other` objects are modelled with a single
rendered form.) -/
def py_repr : PyVal → String
  | .str s => "\x27" ++ s ++ "\x27"
  | .int n => toString n
  | .float r => r
  | .bool b => if b then "True" else "False"
  | .noneV => "None"
  | .list xs => "[" ++ py_repr_elems xs ++ "]"
  | .dict ps => "\x7b" ++ py_repr_pairs ps ++ "\x7d"
  | .enumMember en m _ vr => "<" ++ en ++ "." ++ m ++ ": " ++ vr ++ ">"
  | .other _ _ r => r

/-- The comma-joined element reprs inside a list rendering. -/
def py_repr_elems : List PyVal → String
  | [] => ""
  | [x] => py_repr x
  | x :: rest => py_repr x ++ ", " ++ py_repr_elems rest

/-- The comma-joined `key: value` reprs inside a dict rendering. -/
def py_repr_pairs : List (PyVal × PyVal) → String
  | [] => ""
  | [(k, v)] => py_repr k ++ ": " ++ py_repr v
  | (k, v) :: rest => py_repr k ++ ": " ++ py_repr v ++ ", " ++ py_repr_pairs rest

end

/-- The runtime class of a `Literal` member value (utils.py line 33). -/
def lit_val_ty : LitVal → Ty
  | .i _ => .intTy
  | .s _ => .strTy
  | .b _ => .boolTy

/-- utils.py lines 53-58: the rendered head name of a type expression
(`__name__` for classes and builtins, the `_name` of a typing alias). -/
def ty_name : Ty → String
  | .noneType => "NoneType"
  | .anyTy => "Any"
  | .ellipsisTy => "..."
  | .intTy => "int"
  | .floatTy => "float"
  | .strTy => "str"
  | .boolTy => "bool"
  | .bytesTy => "bytes"
  | .pathTy => "Path"
  | .enumTy n _ => n
  | .bareTuple => "tuple"
  | .bareList => "list"
  | .bareDict => "dict"
  | .listTy _ => "List"
  | .dictTy _ _ => "Dict"
  | .tupleTy _ => "Tuple"
  | .unionTy _ => "Union"
  | .literalTy _ => "Literal"
  | .callableTy _ _ => "Callable"
  | .typeOfTy _ => "Type"
  | .structuredTy n _ _ => n
  | .userClass n _ => n

/-- Python `sorted` on a list of strings: lexicographic ascending order. -/
def sort_strings (l : List String) : List String :=
  l.insertionSort (· ≤ ·)

mutual

/-- utils.py lines 41-76, `type_str` (this repository's variant, which
renders Union members in sorted order).  Line 42 resolves the optional
wrapping once; the rest of the body works on the resolved type.  A raw
`None` annotation (line 43) cannot reach this function through the builder,
since `get_type_hints` normalizes it to the class `NoneType`, which renders
through the name branch. -/
def type_str (t : Ty) : String :=
  type_str_resolved (resolve_optional t).1 (resolve_optional t).2
termination_by 2 * sizeOf t + 1
decreasing_by
  have h := sizeOf_resolve_optional t
  omega

/-- The body of `type_str` on the result of `_resolve_optional`. -/
def type_str_resolved (is_optional : Bool) (ty : Ty) : String :=
  if ty.is_any then "Any"             -- lines 45-46 (early return, no wrap)
  else if ty.is_ellipsis then "..."   -- lines 47-48 (early return, no wrap)
  else
    let ret :=
      match ty with
      -- lines 50-51: a Literal collapses to the set of its member value
      -- types (utils.py lines 28-37): a single class, or a dynamically
      -- built Union of classes.  Those members are bare primitive classes,
      -- whose recursive rendering (lines 53-54, 60-62) is their name.
      | .literalTy vs =>
        match (vs.map fun v => ty_name (lit_val_ty v)).dedup with
        | [c] => c
        | cs => "Union[" ++ String.intercalate ", " (sort_strings cs) ++ "]"
      -- lines 63-66: Callable[[ins], out]
      | .callableTy ins out =>
        "Callable[[" ++
          String.intercalate ", " (ins.attach.map fun x => type_str x.1) ++ "], " ++
          type_str out ++ "]"
      -- lines 67-69: Union members are rendered in sorted order
      | .unionTy ms =>
        "Union[" ++
          String.intercalate ", " (sort_strings (ms.attach.map fun x => type_str x.1)) ++ "]"
      -- lines 70-72: any other parameterized alias
      | .listTy e => "List[" ++ type_str e ++ "]"
      | .dictTy k v => "Dict[" ++ type_str k ++ ", " ++ type_str v ++ "]"
      | .tupleTy args =>
        "Tuple[" ++ String.intercalate ", " (args.attach.map fun x => type_str x.1) ++ "]"
      | .typeOfTy a => "Type[" ++ type_str a ++ "]"
      -- lines 53-58, 60-62: a bare name with no arguments
      | u => ty_name u
    if is_optional then "Optional[" ++ ret ++ "]" else ret  -- lines 73-76
termination_by 2 * sizeOf ty
decreasing_by
  all_goals
    first
      | (have h := List.sizeOf_lt_of_mem x.2
         simp_arith
         omega)
      | simp_arith

end

/-- A member of the `imports` set built by `generate_module` (a Python set of
type objects): either a type expression, or one of the two `typing` special
forms `Optional` / `Union` that `collect_imports` inserts as markers
(utils.py lines 126-130). -/
inductive ImportItem where
  | ty (t : Ty)
  | optionalForm
  | unionForm

mutual

/-- Structural equality of embedded type expressions, mirroring Python
object equality on the type objects they stand for. -/
def tyBeq : Ty → Ty → Bool
  | .noneType, .noneType => true
  | .anyTy, .anyTy => true
  | .ellipsisTy, .ellipsisTy => true
  | .intTy, .intTy => true
  | .floatTy, .floatTy => true
  | .strTy, .strTy => true
  | .boolTy, .boolTy => true
  | .bytesTy, .bytesTy => true
  | .pathTy, .pathTy => true
  | .enumTy n1 m1, .enumTy n2 m2 => n1 == n2 && m1 == m2
  | .bareTuple, .bareTuple => true
  | .bareList, .bareList => true
  | .bareDict, .bareDict => true
  | .listTy a, .listTy b => tyBeq a b
  | .dictTy k1 v1, .dictTy k2 v2 => tyBeq k1 k2 && tyBeq v1 v2
  | .tupleTy l1, .tupleTy l2 => tyListBeq l1 l2
  | .unionTy l1, .unionTy l2 => tyListBeq l1 l2
  | .literalTy v1, .literalTy v2 => v1 == v2
  | .callableTy i1 o1, .callableTy i2 o2 => tyListBeq i1 i2 && tyBeq o1 o2
  | .typeOfTy a, .typeOfTy b => tyBeq a b
  | .structuredTy n1 m1 l1, .structuredTy n2 m2 l2 => n1 == n2 && m1 == m2 && l1 == l2
  | .userClass n1 m1, .userClass n2 m2 => n1 == n2 && m1 == m2
  | _, _ => false

/-- Elementwise `tyBeq` on argument lists. -/
def tyListBeq : List Ty → List Ty → Bool
  | [], [] => true
  | a :: as1, b :: bs1 => tyBeq a b && tyListBeq as1 bs1
  | _, _ => false

end

/-- Equality of `imports` set members. -/
def itemBeq : ImportItem → ImportItem → Bool
  | .ty a, .ty b => tyBeq a b
  | .optionalForm, .optionalForm => true
  | .unionForm, .unionForm => true
  | _, _ => false

/-- Python set insertion (`set.add` / `set.update`) for the `imports` set of
type objects: a no-op when an equal member is already present. -/
def add_item (l : List ImportItem) (x : ImportItem) : List ImportItem :=
  if l.any fun y => itemBeq x y then l else l ++ [x]

/-- Python set insertion for a set of strings. -/
def add_str (l : List String) (x : String) : List String :=
  if x ∈ l then l else l ++ [x]

/-- typing `get_args` restricted to the shapes `collect_imports` walks: the
parameter lists of the alias constructors; classes and `Any` have no args.
(`Callable` is excluded before its args are walked, see `collect_imports`.) -/
def get_args_tys : Ty → List Ty
  | .listTy e => [e]
  | .dictTy k v => [k, v]
  | .tupleTy args => args
  | .unionTy ms => ms
  | .typeOfTy a => [a]
  | _ => []

theorem ty_list_weight_lt_sizeOf (l : List Ty) : (l.map sizeOf).sum < sizeOf l := by
  induction l with
  | nil => simp
  | cons a l ih =>
    simp only [List.map_cons, List.sum_cons, List.cons.sizeOf_spec]
    omega

theorem ty_list_weight_args_lt (t : Ty) :
    ((get_args_tys t).map sizeOf).sum < sizeOf t := by
  have h := ty_list_weight_lt_sizeOf (get_args_tys t)
  cases t <;> simp only [get_args_tys] at h ⊢ <;> simp_arith at h ⊢ <;> omega

mutual

/-- utils.py lines 117-133, `collect_imports`: record the type objects a
compatible annotation references.  A `Literal` is skipped entirely
(line 119).  Otherwise the walk recurses into the non-Ellipsis `get_args`
(lines 120-122) and then inserts a representative for the type itself: the
`Optional` marker (plus the `Union` marker for an optional union) for an
optional non-`Any` type, the `Union` marker for a union, or the type object
itself (lines 123-133).  On a `Callable`, Python's `get_args` yields the
parameter list as a plain list object, and inserting that unhashable object
into the set raises `TypeError` before any mutation. -/
def collect_imports (imps : List ImportItem) (t : Ty) : Except PyErr (List ImportItem) :=
  if is_literal_ty t then .ok imps
  else if t.is_callable then .error .typeError
  else
    match collect_args imps (get_args_tys t) with
    | .error e => .error e
    | .ok imps1 =>
      let p := resolve_optional t
      let reps : List ImportItem :=
        if p.1 && !t.is_any then
          if is_union_ty p.2 then [.optionalForm, .unionForm] else [.optionalForm]
        else if is_union_ty t then [.unionForm]
        else [.ty t]
      .ok (reps.foldl add_item imps1)
termination_by 2 * sizeOf t
decreasing_by
  have h := ty_list_weight_args_lt t
  omega


/-- utils.py lines 120-122: the recursion over `get_args(type_)`, skipping
Ellipsis arguments, with left-to-right exception propagation. -/
def collect_args (imps : List ImportItem) : List Ty → Except PyErr (List ImportItem)
  | [] => .ok imps
  | a :: rest =>
    if a.is_ellipsis then collect_args imps rest
    else
      match collect_imports imps a with
      | .error e => .error e
      | .ok imps1 => collect_args imps1 rest
termination_by l => 2 * (l.map sizeOf).sum + 1
decreasing_by
  all_goals
    (have h := ty_sizeOf_pos a
     simp only [List.map_cons, List.sum_cons]
     omega)

end

/-- utils.py lines 89-112, one iteration of the `convert_imports` loop:
the import line contributed by one member of the `imports` set, or `none` when
the member is skipped (a primitive type that is neither an Enum nor `Path`,
line 106, or a type defined in the `builtins` module, line 111).

The alias shapes `unionTy`/`callableTy`/`typeOfTy`/`literalTy`/`ellipsisTy`
are never inserted by `collect_imports` (unions and optionals are
represented by the marker entries, literal subtrees are skipped, `Callable`
insertion raises); they are rendered with their `typing`-module line (resp.
skipped) only for totality. -/
def classname_line : ImportItem → Option String
  | .optionalForm => some "from typing import Optional"   -- lines 92-93
  | .unionForm => some "from typing import Union"         -- lines 94-95
  | .ty t =>
    match t with
    | .anyTy => some "from typing import Any"             -- lines 90-91
    | .listTy _ => some "from typing import List"         -- lines 98-99
    | .tupleTy _ => some "from typing import Tuple"       -- lines 100-101
    | .dictTy _ _ => some "from typing import Dict"       -- lines 102-103
    | .enumTy n emod => some ("from " ++ emod ++ " import " ++ n)
    | .pathTy => some "from pathlib import Path"          -- lines 109-112
    | .structuredTy n smod _ => some ("from " ++ smod ++ " import " ++ n)
    | .userClass n umod => some ("from " ++ umod ++ " import " ++ n)
    | .intTy | .floatTy | .boolTy | .strTy | .bytesTy | .noneType => none
    | .bareTuple | .bareList | .bareDict => none
    | .unionTy _ => some "from typing import Union"
    | .callableTy _ _ => some "from typing import Callable"
    | .typeOfTy _ => some "from typing import Type"
    | .literalTy _ => some "from typing import Literal"
    | .ellipsisTy => none

/-- utils.py lines 87-114, `convert_imports`: build the set of import lines
contributed by the collected type objects, union it with the literal
string imports, and return the result lexicographically sorted (Python
`sorted(list(tmp.union(string_imports)))` on a set of strings). -/
def convert_imports (imps : List ImportItem) (string_imps : List String) : List String :=
  let tmp := imps.foldl (fun acc it =>
    match classname_line it with
    | some s => add_str acc s
    | none => acc) []
  sort_strings ((tmp ++ string_imps).dedup)

/-- configen.py lines 88-92, the `Parameter` dataclass: one produced
parameter descriptor.  `generate_module` always stores `str(default_)`, so
the default is carried as the final rendered string. -/
structure Parameter where
  name : String
  type_str : String
  default : String
deriving DecidableEq, Repr

/-- The mutable per-module state the parameter loop threads: the `imports`
set of type objects and the `string_imports` set of literal import lines
(configen.py lines 185-186). -/
structure BuildState where
  imports : List ImportItem
  string_imports : List String

/-- The `default_` local of the parameter loop once it may have been
replaced by a rendered string: either still the original runtime value, or
already a string. -/
def str_of_default : Sum PyVal String → String
  | .inl v => py_str v
  | .inr s => s

/-- Python `str(default_)` at line 250; `none` (the untouched
`inspect.Signature.empty` sentinel) cannot survive to this point, because a
missing default always sets `default_ = "MISSING"` at line 235. -/
def str_of_opt_default : Option (Sum PyVal String) → String
  | some d => str_of_default d
  | none => ""

/-- configen.py lines 205-252: the body of the per-parameter loop of
`generate_module`, producing one descriptor and the updated import state.
`ann` is the resolved annotation (`resolved_hints.get(name, p.annotation)`,
`none` when the parameter is not annotated), `dflt` the supplied default
(`none` when `p.default == sig.empty`).  The loop-control lines 199-204
(skipping `self` and variadic parameters) select which parameters this body
runs on and are not part of it. -/
def build_parameter (st : BuildState) (name : String) (ann : Option Ty)
    (dflt : Option PyVal) : Except PyErr (Parameter × BuildState) := do
  -- line 208
  let missing_value := dflt.isNone
  -- line 209: `not missing_value and is_incompatible(type(default_))`
  let incompatible_value_type ←
    match dflt with
    | none => pure false
    | some v => is_incompatible (type_of_val v)
  -- line 210
  let missing_annotation_type := ann.isNone
  -- line 211: `not missing_annotation_type and is_incompatible(type_)`
  let incompatible_annotation_type ←
    match ann with
    | none => pure false
    | some t => is_incompatible t
  -- lines 213-217: an enum-valued default registers its class's import
  let st1 :=
    match dflt with
    | some (.enumMember en _ emod _) =>
      { st with string_imports :=
          add_str st.string_imports ("from " ++ emod ++ " import " ++ en) }
    | _ => st
  -- lines 219-221: a missing or incompatible annotation degrades to Any
  let r2 ←
    if missing_annotation_type || incompatible_annotation_type then do
      let imps ← collect_imports st1.imports .anyTy
      pure (Ty.anyTy, { st1 with imports := imps })
    else
      match ann with
      | some t => pure (t, st1)
      | none => pure (Ty.anyTy, st1)  -- unreachable: a missing annotation takes the branch above
  let type_ := r2.1
  let st2 := r2.2
  -- lines 223-229: render a supplied default (str-typed values are
  -- quote-wrapped first; list/dict values become a default_factory)
  let default1 : Option (Sum PyVal String) :=
    match dflt with
    | none => none
    | some v =>
      if type_.is_str || (type_of_val v).is_str then
        some (.inr ("\"" ++ py_str v ++ "\""))
      else if is_list_val v then
        some (.inr ("field(default_factory=lambda: " ++ py_str v ++ ")"))
      else if is_dict_val v then
        some (.inr ("field(default_factory=lambda: " ++ py_str v ++ ")"))
      else some (.inl v)
  -- line 231
  let missing_default := if incompatible_value_type then true else missing_value
  -- line 232
  let imps2 ← collect_imports st2.imports type_
  let st3 := { st2 with imports := imps2 }
  -- lines 234-236
  let r4 :=
    if missing_default then
      (some (Sum.inr "MISSING"),
       { st3 with string_imports := add_str st3.string_imports "from omegaconf import MISSING" })
    else (default1, st3)
  let default2 := r4.1
  let st4 := r4.2
  -- lines 238-239: `Enum.__str__` on an enum member still held as a value
  let default3 : Option (Sum PyVal String) :=
    match default2 with
    | some (.inl (.enumMember en m _ _)) => some (.inr (en ++ "." ++ m))
    | d => d
  -- lines 241-244: append the original type as a trailing comment when the
  -- annotation or the default's runtime type was incompatible.
  -- `type_cached` is the original annotation and `type(p.default)` the
  -- original default's class; the fallbacks are unreachable because each
  -- branch requires the corresponding input to be present.
  let default4 : Option (Sum PyVal String) :=
    if incompatible_annotation_type then
      some (.inr (str_of_opt_default default3 ++ "  # " ++
        type_str (match ann with | some t => t | none => .anyTy)))
    else if incompatible_value_type then
      some (.inr (str_of_opt_default default3 ++ "  # " ++
        type_str (match dflt with | some v => type_of_val v | none => .anyTy)))
    else default3
  -- lines 246-251
  pure (⟨name, type_str type_, str_of_opt_default default4⟩, st4)

/-- Python `Optional[T]`, which is `Union[T, None]` with the standard
`Union` flattening, deduplication and singleton collapse: appending
`NoneType` to an existing union (a no-op when already present), `NoneType`
itself absorbing, and a two-member union otherwise. -/
def mk_optional : Ty → Ty
  | .unionTy ms =>
    if ms.any Ty.is_none_type then .unionTy ms else .unionTy (ms ++ [.noneType])
  | .noneType => .noneType
  | t => .unionTy [t, .noneType]

/-- The claim's "string or enum" key condition for mappings
(the classes accepted by `issubclass(kvt[0], (str, Enum))`). -/
def is_str_or_enum : Ty → Bool
  | .strTy => true
  | .enumTy _ _ => true
  | _ => false

/-- Whether the embedded type expression stands for an actual Python class
(a valid first argument to `issubclass`), as opposed to a parameterized
generic alias, `Any`, `Ellipsis` or a `Literal`. -/
def is_class_ty : Ty → Bool
  | .noneType | .intTy | .floatTy | .strTy | .boolTy | .bytesTy | .pathTy => true
  | .enumTy _ _ | .bareTuple | .bareList | .bareDict => true
  | .structuredTy _ _ _ | .userClass _ _ => true
  | _ => false

/-- The claim's "structured record, container, or callable" class of union
members. -/
def is_struct_container_or_callable : Ty → Bool
  | .structuredTy _ _ _ => true
  | .listTy _ | .dictTy _ _ | .tupleTy _ => true
  | .bareTuple | .bareList | .bareDict => true
  | .callableTy _ _ => true
  | _ => false

mutual

/-- No `Callable` alias occurs at a position that the `collect_imports` walk
visits (`Literal` subtrees are never visited). -/
def no_callable : Ty → Bool
  | .callableTy _ _ => false
  | .listTy e => no_callable e
  | .dictTy k v => no_callable k && no_callable v
  | .tupleTy args => no_callable_list args
  | .unionTy ms => no_callable_list ms
  | .typeOfTy a => no_callable a
  | _ => true

/-- `no_callable` over an argument list. -/
def no_callable_list : List Ty → Bool
  | [] => true
  | a :: rest => no_callable a && no_callable_list rest

end

mutual

/-- Every mapping key type occurring at a position the classifier's
`issubclass` checks reach is an actual class, and no bare `Ellipsis`
annotation occurs at a classified position (tuple Ellipsis markers are
skipped by the classifier and are allowed). -/
def class_keys : Ty → Bool
  | .ellipsisTy => false
  | .listTy e => class_keys e
  | .dictTy k v => is_class_ty k && class_keys v
  | .tupleTy args => class_keys_tuple args
  | .unionTy ms => class_keys_union ms
  | .typeOfTy a => class_keys a
  | _ => true

/-- `class_keys` over tuple arguments, skipping Ellipsis markers. -/
def class_keys_tuple : List Ty → Bool
  | [] => true
  | a :: rest => (a.is_ellipsis || class_keys a) && class_keys_tuple rest

/-- `class_keys` over union members. -/
def class_keys_union : List Ty → Bool
  | [] => true
  | a :: rest => class_keys a && class_keys_union rest

end

/-! ### Evaluation and structural lemmas -/

theorem is_none_type_eq {a : Ty} : a.is_none_type = true ↔ a = .noneType := by
  cases a <;> simp [Ty.is_none_type]

theorem any_is_none_iff (ms : List Ty) :
    ms.any Ty.is_none_type = true ↔ Ty.noneType ∈ ms := by
  rw [List.any_eq_true]
  constructor
  · rintro ⟨a, ha, hne⟩
    rw [is_none_type_eq] at hne
    exact hne ▸ ha
  · intro h
    exact ⟨.noneType, h, rfl⟩

theorem incompat_noneType : is_incompatible .noneType = COMPATIBLE := by
  simp [is_incompatible, incompat_resolved, resolve_optional, COMPATIBLE]

theorem incompat_bareTuple : is_incompatible .bareTuple = COMPATIBLE := by
  simp [is_incompatible, incompat_resolved, resolve_optional, COMPATIBLE]

theorem incompat_bareList : is_incompatible .bareList = COMPATIBLE := by
  simp [is_incompatible, incompat_resolved, resolve_optional, COMPATIBLE]

theorem incompat_bareDict : is_incompatible .bareDict = COMPATIBLE := by
  simp [is_incompatible, incompat_resolved, resolve_optional, COMPATIBLE]

theorem incompat_pathTy : is_incompatible .pathTy = COMPATIBLE := by
  simp [is_incompatible, incompat_resolved, resolve_optional, COMPATIBLE]

theorem incompat_intTy : is_incompatible .intTy = COMPATIBLE := by
  simp [is_incompatible, incompat_resolved, resolve_optional, COMPATIBLE]

theorem incompat_floatTy : is_incompatible .floatTy = COMPATIBLE := by
  simp [is_incompatible, incompat_resolved, resolve_optional, COMPATIBLE]

theorem incompat_strTy : is_incompatible .strTy = COMPATIBLE := by
  simp [is_incompatible, incompat_resolved, resolve_optional, COMPATIBLE]

theorem incompat_boolTy : is_incompatible .boolTy = COMPATIBLE := by
  simp [is_incompatible, incompat_resolved, resolve_optional, COMPATIBLE]

theorem incompat_anyTy : is_incompatible .anyTy = COMPATIBLE := by
  simp [is_incompatible, incompat_resolved, resolve_optional, COMPATIBLE]

theorem incompat_enumTy (n m : String) :
    is_incompatible (.enumTy n m) = COMPATIBLE := by
  simp [is_incompatible, incompat_resolved, resolve_optional, COMPATIBLE]

theorem incompat_userClass (n m : String) :
    is_incompatible (.userClass n m) = INCOMPATIBLE := by
  simp [is_incompatible, incompat_resolved, resolve_optional, INCOMPATIBLE]

theorem incompat_structuredTy (n m : String) (legal : Bool) :
    is_incompatible (.structuredTy n m legal) = .ok (!legal) := by
  cases legal <;>
    simp [is_incompatible, incompat_resolved, resolve_optional, omegaconf_structured]

theorem incompat_type_of_val (v : PyVal) :
    ∃ b, is_incompatible (type_of_val v) = .ok b := by
  cases v
  case other tn tm r =>
    exact ⟨true, by
      simp [type_of_val, is_incompatible, incompat_resolved, resolve_optional]⟩
  all_goals
    exact ⟨false, by
      simp [type_of_val, is_incompatible, incompat_resolved, resolve_optional]⟩

theorem mem_add_str_self (l : List String) (x : String) : x ∈ add_str l x := by
  unfold add_str
  split
  · assumption
  · simp

theorem mem_add_str_of_mem {l : List String} {y : String} (x : String)
    (h : y ∈ l) : y ∈ add_str l x := by
  unfold add_str
  split
  · exact h
  · simp [h]

theorem collect_anyTy (imps : List ImportItem) :
    collect_imports imps .anyTy = .ok (add_item imps (.ty .anyTy)) := by
  simp [collect_imports, collect_args, get_args_tys, is_literal_ty, is_union_ty,
    resolve_optional, Ty.is_any, Ty.is_callable]

theorem collect_strTy (imps : List ImportItem) :
    collect_imports imps .strTy = .ok (add_item imps (.ty .strTy)) := by
  simp [collect_imports, collect_args, get_args_tys, is_literal_ty, is_union_ty,
    resolve_optional, Ty.is_any, Ty.is_callable]

theorem collect_pathTy (imps : List ImportItem) :
    collect_imports imps .pathTy = .ok (add_item imps (.ty .pathTy)) := by
  simp [collect_imports, collect_args, get_args_tys, is_literal_ty, is_union_ty,
    resolve_optional, Ty.is_any, Ty.is_callable]

theorem collect_enumTy (imps : List ImportItem) (n m : String) :
    collect_imports imps (.enumTy n m) = .ok (add_item imps (.ty (.enumTy n m))) := by
  simp [collect_imports, collect_args, get_args_tys, is_literal_ty, is_union_ty,
    resolve_optional, Ty.is_any, Ty.is_callable]

theorem type_str_anyTy : type_str .anyTy = "Any" := by
  simp [type_str, type_str_resolved, resolve_optional, Ty.is_any]

theorem type_str_strTy : type_str .strTy = "str" := by
  simp [type_str, type_str_resolved, resolve_optional, Ty.is_any, Ty.is_ellipsis, ty_name]

theorem type_str_pathTy : type_str .pathTy = "Path" := by
  simp [type_str, type_str_resolved, resolve_optional, Ty.is_any, Ty.is_ellipsis, ty_name]

theorem resolve_mk_optional (t : Ty) :
    (resolve_optional (mk_optional t)).2 = (resolve_optional t).2 := by
  cases t
  case unionTy ms =>
    by_cases h : ms.any Ty.is_none_type
    · simp [mk_optional, h]
    · have hall : ∀ a ∈ ms, a.is_none_type = false := by
        intro a ha
        cases hb : a.is_none_type
        · rfl
        · exact absurd (List.any_eq_true.mpr ⟨a, ha, hb⟩) h
      have hf : ms.filter (fun a => !a.is_none_type) = ms :=
        List.filter_eq_self.mpr (by intro a ha; simp [hall a ha])
      have hany2 : (ms ++ [Ty.noneType]).any Ty.is_none_type = true := by
        simp [Ty.is_none_type]
      have hfilter2 : (ms ++ [Ty.noneType]).filter (fun a => !a.is_none_type) = ms := by
        rw [List.filter_append, hf]
        simp [Ty.is_none_type]
      simp only [mk_optional, h, Bool.false_eq_true, if_false]
      simp only [resolve_optional, hany2, if_true, h, hfilter2]
      cases ms with
      | nil => simp
      | cons x t2 => cases t2 <;> simp
  case noneType => simp [mk_optional]
  case anyTy => simp [mk_optional, resolve_optional, Ty.is_none_type]
  all_goals simp [mk_optional, resolve_optional, Ty.is_none_type]

/-! ### Claim theorems -/

/-- C2: for every type expression `T`, classifying `Optional[T]` gives the
same verdict as classifying `T` itself: `is_incompatible` unwraps the outer
optional first, so the `Optional` wrapping by itself never changes the
verdict (in particular it never causes incompatibility). -/
theorem c2_optional_transparent (t : Ty) :
    is_incompatible (mk_optional t) = is_incompatible t := by
  unfold is_incompatible
  rw [resolve_mk_optional]

/-- C5: a structured record that the merging library's grammar-acceptance
oracle rejects (the oracle raises `ValidationError`) is classified
INCOMPATIBLE, and the classifier never propagates the failure to its caller:
for every oracle outcome the classification of a structured record returns a
verdict, not an error. -/
theorem c5_structured_failure_absorbed (n m : String) :
    omegaconf_structured false = .error .validationError ∧
    is_incompatible (.structuredTy n m false) = INCOMPATIBLE ∧
    (∀ legal, ∃ b, is_incompatible (.structuredTy n m legal) = .ok b) := by
  refine ⟨rfl, ?_, ?_⟩
  · simpa [INCOMPATIBLE] using incompat_structuredTy n m false
  · intro legal
    exact ⟨!legal, incompat_structuredTy n m legal⟩

theorem not_none_and_bad_eq_bad (a : Ty) :
    (!a.is_none_type && !(is_primitive_type_ann a || is_literal_ty a)) =
      !(is_primitive_type_ann a || is_literal_ty a) := by
  cases a <;> simp [Ty.is_none_type, is_primitive_type_ann, is_literal_ty]

theorem any_filter_none (ms : List Ty) :
    ((ms.filter fun a => !a.is_none_type).any
        fun a => !(is_primitive_type_ann a || is_literal_ty a)) =
      ms.any fun a => !(is_primitive_type_ann a || is_literal_ty a) := by
  induction ms with
  | nil => rfl
  | cons a t2 ih =>
    cases ha : a.is_none_type
    · rw [List.filter_cons]
      simp only [ha, Bool.not_false, if_true, List.any_cons, ih]
    · have haeq : a = .noneType := is_none_type_eq.mp ha
      subst haeq
      rw [List.filter_cons]
      simp only [ha, Bool.not_true, Bool.false_eq_true, if_false, ih, List.any_cons]
      have hz : (!(is_primitive_type_ann Ty.noneType || is_literal_ty Ty.noneType)) = false := rfl
      rw [hz, Bool.false_or]

theorem incompat_union_multi (ms : List Ty)
    (h : 2 ≤ (ms.filter fun a => !a.is_none_type).length) :
    is_incompatible (.unionTy ms) =
      .ok (ms.any fun a => !(is_primitive_type_ann a || is_literal_ty a)) := by
  unfold is_incompatible
  by_cases hn : ms.any Ty.is_none_type
  · rcases hflt : ms.filter fun a => !a.is_none_type with _ | ⟨x, _ | ⟨y, rest⟩⟩
    · rw [hflt] at h; simp at h
    · rw [hflt] at h; simp at h
    · simp only [resolve_optional, hn, if_true, hflt]
      simp only [incompat_resolved]
      rw [← hflt, any_filter_none]
  · have hall : ∀ a ∈ ms, (!a.is_none_type) = true := by
      intro a ha
      cases hb : a.is_none_type
      · rfl
      · exact absurd (List.any_eq_true.mpr ⟨a, ha, hb⟩) hn
    have hf : (ms.filter fun a => !a.is_none_type) = ms := List.filter_eq_self.mpr hall
    rw [hf] at h
    cases ms with
    | nil => simp at h
    | cons x t3 =>
      cases t3 with
      | nil => simp at h
      | cons y rest =>
        rw [resolve_optional]
        · rw [if_neg hn]
          simp only [incompat_resolved]
        · intro a ha
          simp at ha
        · intro ha
          simp at ha

/-- C1: a Union with at least two members besides `NoneType` (i.e. one that
is not merely an Optional wrapping) is classified COMPATIBLE iff every
member is a primitive type or a Literal; a Union containing any structured
record, container, or callable member is classified INCOMPATIBLE. -/
theorem c1_union_primitive_or_literal (ms : List Ty)
    (h : 2 ≤ (ms.filter fun a => !a.is_none_type).length) :
    (is_incompatible (.unionTy ms) = COMPATIBLE ↔
      ∀ m ∈ ms, is_primitive_type_ann m = true ∨ is_literal_ty m = true) ∧
    ((∃ m ∈ ms, is_struct_container_or_callable m = true) →
      is_incompatible (.unionTy ms) = INCOMPATIBLE) := by
  have hu := incompat_union_multi ms h
  constructor
  · rw [hu]
    simp only [COMPATIBLE, Except.ok.injEq]
    constructor
    · intro hok m hm
      by_contra hc
      push_neg at hc
      obtain ⟨hp, hl⟩ := hc
      have hp2 : is_primitive_type_ann m = false := by
        cases hx : is_primitive_type_ann m
        · rfl
        · exact absurd hx hp
      have hl2 : is_literal_ty m = false := by
        cases hx : is_literal_ty m
        · rfl
        · exact absurd hx hl
      have : (ms.any fun a => !(is_primitive_type_ann a || is_literal_ty a)) = true :=
        List.any_eq_true.mpr ⟨m, hm, by simp [hp2, hl2]⟩
      rw [this] at hok
      exact Bool.true_eq_false.mp hok
    · intro hall
      cases hany : ms.any fun a => !(is_primitive_type_ann a || is_literal_ty a)
      · rfl
      · obtain ⟨m, hm, hmf⟩ := List.any_eq_true.mp hany
        rcases hall m hm with h1 | h1 <;> simp [h1] at hmf
  · rintro ⟨m, hm, hbad⟩
    rw [hu]
    have hnp : (!(is_primitive_type_ann m || is_literal_ty m)) = true := by
      cases m <;> simp_all [is_struct_container_or_callable, is_primitive_type_ann,
        is_literal_ty]
    have : (ms.any fun a => !(is_primitive_type_ann a || is_literal_ty a)) = true :=
      List.any_eq_true.mpr ⟨m, hm, hnp⟩
    rw [this]
    rfl

/-- Witness for C1: `Union[int, float]` is COMPATIBLE; a Union with a
structured-record member is INCOMPATIBLE. -/
theorem c1_witness :
    is_incompatible (.unionTy [.intTy, .floatTy]) = COMPATIBLE ∧
    is_incompatible (.unionTy [.intTy, .structuredTy "Rec" "m" true]) = INCOMPATIBLE := by
  constructor
  · exact (c1_union_primitive_or_literal [.intTy, .floatTy] (by decide)).1.mpr (by decide)
  · exact (c1_union_primitive_or_literal [.intTy, .structuredTy "Rec" "m" true]
      (by decide)).2 ⟨.structuredTy "Rec" "m" true, List.Mem.tail _ (List.Mem.head _), rfl⟩

theorem issubclass_str_enum_eq (k : Ty) :
    issubclass_str_enum k =
      if is_class_ty k then .ok (is_str_or_enum k) else .error .typeError := by
  cases k <;> rfl

theorem incompat_dictTy (k v : Ty) :
    is_incompatible (.dictTy k v) =
      match issubclass_str_enum k with
      | .error e => .error e
      | .ok false => .ok true
      | .ok true => is_incompatible v := by
  unfold is_incompatible
  have hr : resolve_optional (.dictTy k v) = (false, .dictTy k v) := rfl
  rw [hr]
  simp only [incompat_resolved]
  unfold is_incompatible
  rfl

theorem str_or_enum_class (k : Ty) (h : is_str_or_enum k = true) :
    is_class_ty k = true := by
  cases k <;> simp_all [is_str_or_enum, is_class_ty]

/-- Counterexample for C3 as stated: a mapping whose key type is itself a
parameterized generic (`Dict[Tuple[str, str], int]`) does not yield the
INCOMPATIBLE verdict; the `issubclass` key check raises `TypeError`, which
escapes the classifier. -/
theorem c3_counterexample :
    is_incompatible (.dictTy (.tupleTy [.strTy, .strTy]) .intTy) = .error .typeError ∧
    Except.error PyErr.typeError ≠ INCOMPATIBLE := by
  constructor
  · rw [incompat_dictTy]
    rfl
  · simp [INCOMPATIBLE]

/-- C3 (amended): a mapping type is classified COMPATIBLE iff its key type
is a string or enum type and its value type is classified COMPATIBLE; any
other *class* key type (e.g. `int`) makes the mapping INCOMPATIBLE, while a
non-class key type makes the `issubclass` check raise instead of returning a
verdict. -/
theorem c3_dict_key_value (k v : Ty) :
    (is_incompatible (.dictTy k v) = COMPATIBLE ↔
      is_str_or_enum k = true ∧ is_incompatible v = COMPATIBLE) ∧
    (is_class_ty k = true → is_str_or_enum k = false →
      is_incompatible (.dictTy k v) = INCOMPATIBLE) := by
  constructor
  · rw [incompat_dictTy, issubclass_str_enum_eq]
    by_cases hc : is_class_ty k = true
    · rw [if_pos hc]
      cases hs : is_str_or_enum k
      · simp [COMPATIBLE]
      · simp [COMPATIBLE]
    · rw [if_neg hc]
      have hs : is_str_or_enum k = false := by
        cases hx : is_str_or_enum k
        · rfl
        · exact absurd (str_or_enum_class k hx) hc
      simp [hs, COMPATIBLE]
  · intro hc hs
    rw [incompat_dictTy, issubclass_str_enum_eq, if_pos hc, hs]
    rfl

/-- Witness for C3 (amended): `Dict[int, str]` is INCOMPATIBLE, and the
compatibility of `Dict[str, int]` follows the key/value characterization. -/
theorem c3_witness :
    is_incompatible (.dictTy .intTy .strTy) = INCOMPATIBLE ∧
    (is_incompatible (.dictTy .strTy .intTy) = COMPATIBLE ↔
      is_str_or_enum .strTy = true ∧ is_incompatible .intTy = COMPATIBLE) :=
  ⟨(c3_dict_key_value .intTy .strTy).2 rfl rfl, (c3_dict_key_value .strTy .intTy).1⟩

/-- C4: a parameter with no default whose declared type the classifier
judges INCOMPATIBLE produces a descriptor with the `Any` placeholder as its
recorded type, the required-value sentinel `MISSING` as its default, and a
trailing comment carrying the rendered name of the original incompatible
type. -/
theorem c4_incompatible_annotation_no_default (st : BuildState) (name : String) (t : Ty)
    (h : is_incompatible t = INCOMPATIBLE) :
    ∃ st2, build_parameter st name (some t) none =
      .ok (⟨name, "Any", "MISSING  # " ++ type_str t⟩, st2) := by
  rw [INCOMPATIBLE] at h
  refine ⟨⟨add_item (add_item st.imports (.ty .anyTy)) (.ty .anyTy),
    add_str st.string_imports "from omegaconf import MISSING"⟩, ?_⟩
  unfold build_parameter
  simp only [Bind.bind, Except.bind, pure, Except.pure, h, collect_anyTy,
    type_str_anyTy, Option.isNone_none, Option.isNone_some,
    Bool.or_true, Bool.true_or, Bool.or_false, Bool.false_or,
    Bool.false_eq_true, Bool.true_eq_false, ite_true, ite_false, if_true, if_false,
    str_of_opt_default, str_of_default]
  rfl

/-- Witness for C4: a parameter typed with an unrecognized user class and no
default yields recorded type `Any` and default `MISSING` with the class name
as a trailing comment. -/
theorem c4_witness :
    ∃ st2, build_parameter ⟨[], []⟩ "x" (some (.userClass "LinkedList" "mylib")) none =
      .ok (⟨"x", "Any", "MISSING  # " ++ type_str (.userClass "LinkedList" "mylib")⟩, st2) :=
  c4_incompatible_annotation_no_default ⟨[], []⟩ "x" (.userClass "LinkedList" "mylib")
    (incompat_userClass "LinkedList" "mylib")

theorem is_ellipsis_eq {a : Ty} : a.is_ellipsis = true ↔ a = .ellipsisTy := by
  cases a <;> simp [Ty.is_ellipsis]

theorem no_callable_list_iff (l : List Ty) :
    no_callable_list l = true ↔ ∀ a ∈ l, no_callable a = true := by
  induction l with
  | nil => simp [no_callable_list]
  | cons a rest ih =>
    rw [no_callable_list]
    simp [Bool.and_eq_true, ih]

theorem sizeOf_mem_args_lt {a t : Ty} (ha : a ∈ get_args_tys t) :
    sizeOf a < sizeOf t := by
  cases t <;> simp only [get_args_tys] at ha
  case listTy e =>
    rw [List.mem_singleton] at ha
    subst ha
    simp_arith
  case dictTy k v =>
    rcases List.mem_cons.mp ha with h1 | h1
    · subst h1; simp_arith
    · rw [List.mem_singleton] at h1
      subst h1
      simp_arith
  case tupleTy args =>
    have := List.sizeOf_lt_of_mem ha
    simp_arith
    omega
  case unionTy ms =>
    have := List.sizeOf_lt_of_mem ha
    simp_arith
    omega
  case typeOfTy x =>
    rw [List.mem_singleton] at ha
    subst ha
    simp_arith
  all_goals simp at ha

theorem no_callable_mem_args {a t : Ty} (h : no_callable t = true)
    (ha : a ∈ get_args_tys t) : no_callable a = true := by
  cases t <;> simp only [get_args_tys] at ha
  case listTy e =>
    rw [List.mem_singleton] at ha
    subst ha
    simpa [no_callable] using h
  case dictTy k v =>
    rw [no_callable, Bool.and_eq_true] at h
    rcases List.mem_cons.mp ha with h1 | h1
    · subst h1; exact h.1
    · rw [List.mem_singleton] at h1
      subst h1
      exact h.2
  case tupleTy args =>
    rw [no_callable] at h
    exact (no_callable_list_iff args).mp h a ha
  case unionTy ms =>
    rw [no_callable] at h
    exact (no_callable_list_iff ms).mp h a ha
  case typeOfTy x =>
    rw [List.mem_singleton] at ha
    subst ha
    simpa [no_callable] using h
  all_goals simp at ha

theorem collect_args_ok_aux (l : List Ty)
    (hel : ∀ a ∈ l, ∀ imps2, ∃ out, collect_imports imps2 a = .ok out) :
    ∀ imps, ∃ out, collect_args imps l = .ok out := by
  induction l with
  | nil => exact fun imps => ⟨imps, by rw [collect_args]⟩
  | cons a rest ih =>
    intro imps
    rw [collect_args]
    cases he : a.is_ellipsis
    · obtain ⟨out1, h1⟩ := hel a (List.mem_cons_self a rest) imps
      simp only [Bool.false_eq_true, if_false, h1]
      exact ih (fun b hb => hel b (List.mem_cons_of_mem a hb)) out1
    · rw [if_pos rfl]
      exact ih (fun b hb => hel b (List.mem_cons_of_mem a hb)) imps

theorem collect_ok_of_no_callable (t : Ty) (h : no_callable t = true)
    (imps : List ImportItem) : ∃ out, collect_imports imps t = .ok out := by
  rw [collect_imports]
  cases hl : is_literal_ty t
  · simp only [Bool.false_eq_true, if_false]
    have hc : t.is_callable = false := by
      cases t <;> first | rfl | simp [no_callable] at h
    simp only [hc, Bool.false_eq_true, if_false]
    have hel : ∀ a ∈ get_args_tys t, ∀ imps2, ∃ out, collect_imports imps2 a = .ok out := by
      intro a ha imps2
      exact collect_ok_of_no_callable a (no_callable_mem_args h ha) imps2
    obtain ⟨out1, h1⟩ := collect_args_ok_aux (get_args_tys t) hel imps
    rw [h1]
    exact ⟨_, rfl⟩
  · rw [if_pos rfl]
    exact ⟨imps, rfl⟩
termination_by sizeOf t
decreasing_by
  exact sizeOf_mem_args_lt ha

theorem tuple_any_ok_false {l : List Ty} (h : tuple_any_incompat l = COMPATIBLE) :
    ∀ a ∈ l, a.is_ellipsis = false → is_incompatible a = COMPATIBLE := by
  rw [COMPATIBLE] at h ⊢
  induction l with
  | nil => intro a ha; simp at ha
  | cons a rest ih =>
    rw [tuple_any_incompat] at h
    intro b hb hbe
    cases he : a.is_ellipsis
    · simp only [he, Bool.false_eq_true, if_false] at h
      cases hx : is_incompatible a
      · rw [hx] at h
        exact absurd h (by simp)
      · rename_i bv
        rw [hx] at h
        cases bv
        · rcases List.mem_cons.mp hb with h1 | h1
          · subst h1; exact hx
          · exact ih h b h1 hbe
        · exact absurd h (by simp)
    · rw [if_pos he] at h
      rcases List.mem_cons.mp hb with h1 | h1
      · subst h1
        rw [he] at hbe
        exact absurd hbe (by simp)
      · exact ih h b h1 hbe

theorem issubclass_ok_true_cases {k : Ty} (h : issubclass_str_enum k = .ok true) :
    no_callable k = true := by
  cases k <;> first | rfl | simp [issubclass_str_enum] at h

theorem prim_or_lit_no_callable {m : Ty}
    (h : is_primitive_type_ann m = true ∨ is_literal_ty m = true) :
    no_callable m = true := by
  cases m <;> first | rfl | simp [is_primitive_type_ann, is_literal_ty] at h

theorem mem_filter_or_none {m : Ty} {ms : List Ty} (hm : m ∈ ms) :
    m = .noneType ∨ m ∈ ms.filter (fun a => !a.is_none_type) := by
  cases hmn : m.is_none_type
  · exact Or.inr (List.mem_filter.mpr ⟨hm, by simp [hmn]⟩)
  · exact Or.inl (is_none_type_eq.mp hmn)

theorem no_callable_resolve (t : Ty) (h : no_callable (resolve_optional t).2 = true) :
    no_callable t = true := by
  cases t <;> try simpa [resolve_optional] using h
  case unionTy ms =>
    rw [no_callable, no_callable_list_iff]
    intro m hm
    by_cases hn : ms.any Ty.is_none_type
    · rcases hflt : ms.filter fun a => !a.is_none_type with _ | ⟨x, _ | ⟨y, rest⟩⟩ <;>
        simp only [resolve_optional, hn, if_true, hflt] at h
      · rcases mem_filter_or_none hm with h1 | h1
        · subst h1; rfl
        · rw [hflt] at h1
          simp at h1
      · rcases mem_filter_or_none hm with h1 | h1
        · subst h1; rfl
        · rw [hflt] at h1
          rw [List.mem_singleton] at h1
          subst h1
          exact h
      · rcases mem_filter_or_none hm with h1 | h1
        · subst h1; rfl
        · rw [hflt] at h1
          rw [no_callable, no_callable_list_iff] at h
          exact h m h1
    · have hfm : m ∈ ms.filter fun a => !a.is_none_type := by
        rcases mem_filter_or_none hm with h1 | h1
        · subst h1
          exact absurd (List.any_eq_true.mpr ⟨.noneType, hm, rfl⟩) hn
        · exact h1
      have hfeq : (ms.filter fun a => !a.is_none_type) = ms := by
        refine List.filter_eq_self.mpr ?_
        intro a ha
        cases hb : a.is_none_type
        · rfl
        · exact absurd (List.any_eq_true.mpr ⟨a, ha, hb⟩) hn
      cases ms with
      | nil => simp at hm
      | cons x t3 =>
        cases t3 with
        | nil =>
          rw [List.mem_singleton] at hm
          subst hm
          simpa [resolve_optional, hn] using h
        | cons y rest =>
          rw [resolve_optional] at h
          · rw [if_neg hn] at h
            rw [no_callable, no_callable_list_iff] at h
            exact h m hm
          · intro a ha
            simp at ha
          · intro ha
            simp at ha
mutual

theorem compat_no_callable (s : Ty) (h : incompat_resolved s = COMPATIBLE) :
    no_callable s = true := by
  rw [COMPATIBLE] at h
  cases s
  case listTy e =>
    rw [incompat_resolved] at h
    have := compat_no_callable_inc e h
    simpa [no_callable] using this
  case dictTy k v =>
    rw [incompat_resolved] at h
    cases hk : issubclass_str_enum k
    · rw [hk] at h
      exact absurd h (by simp)
    · rename_i bv
      rw [hk] at h
      cases bv
      · exact absurd h (by simp)
      · have hv := compat_no_callable_inc v h
        rw [no_callable, Bool.and_eq_true]
        exact ⟨issubclass_ok_true_cases hk, hv⟩
  case tupleTy args =>
    rw [incompat_resolved] at h
    rw [no_callable, no_callable_list_iff]
    intro a ha
    have hsz := List.sizeOf_lt_of_mem ha
    cases he : a.is_ellipsis
    · exact compat_no_callable_inc a (tuple_any_ok_false (by rw [COMPATIBLE]; exact h) a ha he)
    · rw [is_ellipsis_eq.mp he]
      rfl
  case unionTy ms =>
    rw [incompat_resolved] at h
    rw [no_callable, no_callable_list_iff]
    intro m hm
    have h2 : (!(is_primitive_type_ann m || is_literal_ty m)) = false := by
      cases hx : (!(is_primitive_type_ann m || is_literal_ty m))
      · rfl
      · have : (ms.any fun a => !(is_primitive_type_ann a || is_literal_ty a)) = true :=
          List.any_eq_true.mpr ⟨m, hm, hx⟩
        rw [this] at h
        exact absurd h (by simp)
    refine prim_or_lit_no_callable ?_
    cases hp : is_primitive_type_ann m
    · cases hl2 : is_literal_ty m
      · simp [hp, hl2] at h2
      · exact Or.inr rfl
    · exact Or.inl rfl
  case typeOfTy a =>
    rw [incompat_resolved] at h
    have := compat_no_callable_inc a h
    simpa [no_callable] using this
  case callableTy i o =>
    rw [incompat_resolved] at h
    exact absurd h (by simp)
  all_goals rfl
termination_by 2 * sizeOf s
decreasing_by
  all_goals try subst_vars
  all_goals try simp_arith
  all_goals omega

theorem compat_no_callable_inc (x : Ty) (h : is_incompatible x = COMPATIBLE) :
    no_callable x = true := by
  unfold is_incompatible at h
  exact no_callable_resolve x (compat_no_callable (resolve_optional x).2 h)
termination_by 2 * sizeOf x + 1
decreasing_by
  have h1 := sizeOf_resolve_optional x
  omega

end

theorem compat_collect_ok (t : Ty) (h : is_incompatible t = COMPATIBLE)
    (imps : List ImportItem) : ∃ out, collect_imports imps t = .ok out :=
  collect_ok_of_no_callable t (compat_no_callable_inc t h) imps

theorem add_item_nil (x : ImportItem) : add_item [] x = [x] := rfl

theorem bp_str_annotated_list (st : BuildState) (name : String) (xs : List PyVal) :
    build_parameter st name (some .strTy) (some (.list xs)) =
      .ok (⟨name, "str", "\"[" ++ py_repr_elems xs ++ "]\""⟩,
        { st with imports := add_item st.imports (.ty .strTy) }) := by
  unfold build_parameter
  simp only [Bind.bind, Except.bind, pure, Except.pure, type_of_val,
    incompat_strTy, incompat_bareList, collect_strTy, type_str_strTy, COMPATIBLE,
    Option.isNone_some, Option.isNone_none, Ty.is_str, is_list_val, is_dict_val,
    Bool.or_true, Bool.true_or, Bool.or_false, Bool.false_or,
    Bool.false_eq_true, Bool.true_eq_false, ite_true, ite_false, if_true, if_false,
    str_of_opt_default, str_of_default, py_str, py_repr_elems]
  simp only [String.append_assoc]
  rw [← String.append_assoc]
  rfl

theorem bp_str_annotated_enum (st : BuildState) (name : String)
    (en m emod vr : String) :
    build_parameter st name (some .strTy) (some (.enumMember en m emod vr)) =
      .ok (⟨name, "str", "\"" ++ (en ++ "." ++ m) ++ "\""⟩,
        ⟨add_item st.imports (.ty .strTy),
         add_str st.string_imports ("from " ++ emod ++ " import " ++ en)⟩) := by
  unfold build_parameter
  simp only [Bind.bind, Except.bind, pure, Except.pure, type_of_val,
    incompat_strTy, incompat_enumTy, collect_strTy, type_str_strTy, COMPATIBLE,
    Option.isNone_some, Option.isNone_none, Ty.is_str, is_list_val, is_dict_val,
    Bool.or_true, Bool.true_or, Bool.or_false, Bool.false_or,
    Bool.false_eq_true, Bool.true_eq_false, ite_true, ite_false, if_true, if_false,
    str_of_opt_default, str_of_default, py_str, py_repr_elems]

/-- Counterexample for C6 as stated: a parameter annotated exactly `str`
with a list default takes the quote-wrapping branch (configen.py line 224)
before the list branch, so its recorded default is the quoted literal
`"[]"`, not a `default_factory` wrapper. -/
theorem c6_counterexample :
    build_parameter ⟨[], []⟩ "x" (some .strTy) (some (.list [])) =
      .ok (⟨"x", "str", "\"[]\""⟩, ⟨[.ty .strTy], []⟩) ∧
    "\"[]\"" ≠ "field(default_factory=lambda: " ++ py_str (.list []) ++ ")" := by
  constructor
  · have h := bp_str_annotated_list ⟨[], []⟩ "x" []
    simpa [py_repr_elems, add_item_nil] using h
  · rw [py_str, py_repr_elems]
    decide

/-- Counterexample for C7 as stated: a parameter annotated exactly `str`
with an enum-member default takes the quote-wrapping branch first, so its
recorded default is the quoted string literal, not the bare qualified member
name.  (The enum's defining symbol is still registered in the import set.) -/
theorem c7_counterexample :
    build_parameter ⟨[], []⟩ "c" (some .strTy)
        (some (.enumMember "Color" "RED" "palette" "1")) =
      .ok (⟨"c", "str", "\"Color.RED\""⟩,
        ⟨[.ty .strTy], ["from palette import Color"]⟩) ∧
    "\"Color.RED\"" ≠ "Color" ++ "." ++ "RED" := by
  constructor
  · have h := bp_str_annotated_enum ⟨[], []⟩ "c" "Color" "RED" "palette" "1"
    simpa [add_item_nil, add_str] using h
  · decide

theorem is_str_anyTy_eq : Ty.anyTy.is_str = false := rfl

theorem is_str_bareList_eq : Ty.bareList.is_str = false := rfl

theorem is_str_bareDict_eq : Ty.bareDict.is_str = false := rfl

/-- C6 (amended): a parameter whose supplied default is a list or mapping
value (including an empty one) gets a DeferredFactory default — a
`field(default_factory=lambda: ...)` expression constructing the container
fresh per use, possibly followed by an explanatory comment — provided its
declared type is not exactly `str` (and its classification returns): a
parameter annotated `str` instead takes the quote-wrapping branch first and
records a quoted literal (see the counterexample). -/
theorem c6_container_default_factory (st : BuildState) (name : String)
    (ann : Option Ty) (v : PyVal)
    (hv : is_list_val v = true ∨ is_dict_val v = true)
    (hann : ∀ t, ann = some t → (∃ b, is_incompatible t = .ok b) ∧ t.is_str = false) :
    ∃ p st2, build_parameter st name ann (some v) = .ok (p, st2) ∧
      ∃ c, p.default = "field(default_factory=lambda: " ++ py_str v ++ ")" ++ c := by
  rcases v with s | n | r | b | _ | xs | ps | ⟨en, m, emod, vr⟩ | ⟨tn, tm, r⟩ <;>
    try simp [is_list_val, is_dict_val] at hv
  · -- list value
    rcases ann with _ | t
    · refine ⟨⟨name, "Any", "field(default_factory=lambda: " ++ py_str (.list xs) ++ ")"⟩,
        ⟨add_item (add_item st.imports (.ty .anyTy)) (.ty .anyTy), st.string_imports⟩,
        ?_, "", by simp⟩
      unfold build_parameter
      simp only [Bind.bind, Except.bind, pure, Except.pure, type_of_val,
        incompat_bareList, collect_anyTy, type_str_anyTy, COMPATIBLE,
        Option.isNone_none, Option.isNone_some, is_str_anyTy_eq, is_str_bareList_eq,
          is_str_bareDict_eq, is_list_val, is_dict_val,
        Bool.or_true, Bool.true_or, Bool.or_false, Bool.false_or,
        Bool.false_eq_true, Bool.true_eq_false, ite_true, ite_false, if_true, if_false,
        str_of_opt_default, str_of_default]
    · obtain ⟨⟨b, hb⟩, hstr⟩ := hann t rfl
      cases b
      · obtain ⟨out, hout⟩ := compat_collect_ok t hb st.imports
        refine ⟨⟨name, type_str t, "field(default_factory=lambda: " ++ py_str (.list xs) ++ ")"⟩,
          ⟨out, st.string_imports⟩, ?_, "", by simp⟩
        unfold build_parameter
        simp only [Bind.bind, Except.bind, pure, Except.pure, type_of_val,
          incompat_bareList, hb, hout, hstr, COMPATIBLE,
          Option.isNone_none, Option.isNone_some, is_str_anyTy_eq, is_str_bareList_eq,
          is_str_bareDict_eq, is_list_val, is_dict_val,
          Bool.or_true, Bool.true_or, Bool.or_false, Bool.false_or,
          Bool.false_eq_true, Bool.true_eq_false, ite_true, ite_false, if_true, if_false,
          str_of_opt_default, str_of_default]
      · refine ⟨⟨name, "Any",
          "field(default_factory=lambda: " ++ py_str (.list xs) ++ ")" ++
            ("  # " ++ type_str t)⟩,
          ⟨add_item (add_item st.imports (.ty .anyTy)) (.ty .anyTy), st.string_imports⟩,
          ?_, "  # " ++ type_str t, rfl⟩
        unfold build_parameter
        simp only [Bind.bind, Except.bind, pure, Except.pure, type_of_val,
          incompat_bareList, hb, collect_anyTy, type_str_anyTy, COMPATIBLE,
          Option.isNone_none, Option.isNone_some, is_str_anyTy_eq, is_str_bareList_eq,
          is_str_bareDict_eq, is_list_val, is_dict_val,
          Bool.or_true, Bool.true_or, Bool.or_false, Bool.false_or,
          Bool.false_eq_true, Bool.true_eq_false, ite_true, ite_false, if_true, if_false,
          str_of_opt_default, str_of_default]
        simp only [String.append_assoc]
  · -- dict value
    rcases ann with _ | t
    · refine ⟨⟨name, "Any", "field(default_factory=lambda: " ++ py_str (.dict ps) ++ ")"⟩,
        ⟨add_item (add_item st.imports (.ty .anyTy)) (.ty .anyTy), st.string_imports⟩,
        ?_, "", by simp⟩
      unfold build_parameter
      simp only [Bind.bind, Except.bind, pure, Except.pure, type_of_val,
        incompat_bareDict, collect_anyTy, type_str_anyTy, COMPATIBLE,
        Option.isNone_none, Option.isNone_some, is_str_anyTy_eq, is_str_bareList_eq,
          is_str_bareDict_eq, is_list_val, is_dict_val,
        Bool.or_true, Bool.true_or, Bool.or_false, Bool.false_or,
        Bool.false_eq_true, Bool.true_eq_false, ite_true, ite_false, if_true, if_false,
        str_of_opt_default, str_of_default]
    · obtain ⟨⟨b, hb⟩, hstr⟩ := hann t rfl
      cases b
      · obtain ⟨out, hout⟩ := compat_collect_ok t hb st.imports
        refine ⟨⟨name, type_str t, "field(default_factory=lambda: " ++ py_str (.dict ps) ++ ")"⟩,
          ⟨out, st.string_imports⟩, ?_, "", by simp⟩
        unfold build_parameter
        simp only [Bind.bind, Except.bind, pure, Except.pure, type_of_val,
          incompat_bareDict, hb, hout, hstr, COMPATIBLE,
          Option.isNone_none, Option.isNone_some, is_str_anyTy_eq, is_str_bareList_eq,
          is_str_bareDict_eq, is_list_val, is_dict_val,
          Bool.or_true, Bool.true_or, Bool.or_false, Bool.false_or,
          Bool.false_eq_true, Bool.true_eq_false, ite_true, ite_false, if_true, if_false,
          str_of_opt_default, str_of_default]
      · refine ⟨⟨name, "Any",
          "field(default_factory=lambda: " ++ py_str (.dict ps) ++ ")" ++
            ("  # " ++ type_str t)⟩,
          ⟨add_item (add_item st.imports (.ty .anyTy)) (.ty .anyTy), st.string_imports⟩,
          ?_, "  # " ++ type_str t, rfl⟩
        unfold build_parameter
        simp only [Bind.bind, Except.bind, pure, Except.pure, type_of_val,
          incompat_bareDict, hb, collect_anyTy, type_str_anyTy, COMPATIBLE,
          Option.isNone_none, Option.isNone_some, is_str_anyTy_eq, is_str_bareList_eq,
          is_str_bareDict_eq, is_list_val, is_dict_val,
          Bool.or_true, Bool.true_or, Bool.or_false, Bool.false_or,
          Bool.false_eq_true, Bool.true_eq_false, ite_true, ite_false, if_true, if_false,
          str_of_opt_default, str_of_default]
        simp only [String.append_assoc]

/-- Witness for C6 (amended): `tags: List[str] = []` produces a
`default_factory` default. -/
theorem c6_witness :
    ∃ p st2, build_parameter ⟨[], []⟩ "tags" (some (.listTy .strTy)) (some (.list [])) =
      .ok (p, st2) ∧
      ∃ c, p.default = "field(default_factory=lambda: " ++ py_str (.list []) ++ ")" ++ c := by
  refine c6_container_default_factory ⟨[], []⟩ "tags" (some (.listTy .strTy)) (.list [])
    (Or.inl rfl) ?_
  intro t ht
  rw [Option.some.injEq] at ht
  subst ht
  refine ⟨⟨false, ?_⟩, rfl⟩
  simp [is_incompatible, incompat_resolved, resolve_optional]

theorem is_str_enumTy_eq (n m : String) : (Ty.enumTy n m).is_str = false := rfl

theorem c7_part_b (st : BuildState) (name : String) (t : Ty) (en m emod vr : String)
    (h : is_incompatible t = COMPATIBLE) (hstr : t.is_str = false) :
    ∃ st2, build_parameter st name (some t) (some (.enumMember en m emod vr)) =
      .ok (⟨name, type_str t, en ++ "." ++ m⟩, st2) ∧
      ("from " ++ emod ++ " import " ++ en) ∈ st2.string_imports := by
  obtain ⟨out, hout⟩ := compat_collect_ok t h st.imports
  refine ⟨⟨out, add_str st.string_imports ("from " ++ emod ++ " import " ++ en)⟩, ?_,
    mem_add_str_self _ _⟩
  unfold build_parameter
  simp only [Bind.bind, Except.bind, pure, Except.pure, type_of_val,
    incompat_enumTy, h, hout, hstr, COMPATIBLE,
    Option.isNone_none, Option.isNone_some, is_str_enumTy_eq, is_list_val, is_dict_val,
    Bool.or_true, Bool.true_or, Bool.or_false, Bool.false_or,
    Bool.false_eq_true, Bool.true_eq_false, ite_true, ite_false, if_true, if_false,
    str_of_opt_default, str_of_default]

theorem c7_part_a (st : BuildState) (name : String) (ann : Option Ty)
    (en m emod vr : String) (p : Parameter) (st2 : BuildState)
    (hb : build_parameter st name ann (some (.enumMember en m emod vr)) = .ok (p, st2)) :
    ("from " ++ emod ++ " import " ++ en) ∈ st2.string_imports := by
  rcases ann with _ | t
  · unfold build_parameter at hb
    simp only [Bind.bind, Except.bind, pure, Except.pure, type_of_val,
      incompat_enumTy, COMPATIBLE, collect_anyTy,
      Option.isNone_none, Option.isNone_some, is_str_enumTy_eq, is_list_val, is_dict_val,
      Bool.or_true, Bool.true_or, Bool.or_false, Bool.false_or,
      Bool.false_eq_true, Bool.true_eq_false, ite_true, ite_false, if_true, if_false,
      str_of_opt_default, str_of_default,
      Except.ok.injEq, Prod.mk.injEq] at hb
    obtain ⟨-, hst⟩ := hb
    subst hst
    exact mem_add_str_self _ _
  · unfold build_parameter at hb
    simp only [Bind.bind, Except.bind, pure, Except.pure, type_of_val,
      incompat_enumTy, COMPATIBLE,
      Option.isNone_none, Option.isNone_some, is_str_enumTy_eq, is_list_val, is_dict_val,
      Bool.or_true, Bool.true_or, Bool.or_false, Bool.false_or,
      Bool.false_eq_true, Bool.true_eq_false, ite_true, ite_false, if_true, if_false,
      str_of_opt_default, str_of_default] at hb
    cases hx : is_incompatible t
    · rw [hx] at hb
      simp at hb
    · rename_i b
      rw [hx] at hb
      cases b
      · simp only [Bool.or_false, Bool.false_or, Bool.false_eq_true, ite_false,
          if_false] at hb
        cases hc : collect_imports st.imports t
        · rw [hc] at hb
          simp at hb
        · rw [hc] at hb
          cases hs : t.is_str
          · simp only [hs, Bool.false_eq_true, ite_false, if_false,
              Except.ok.injEq, Prod.mk.injEq] at hb
            obtain ⟨-, hst⟩ := hb
            subst hst
            exact mem_add_str_self _ _
          · simp only [hs, ite_true, if_true, Except.ok.injEq, Prod.mk.injEq] at hb
            obtain ⟨-, hst⟩ := hb
            subst hst
            exact mem_add_str_self _ _
      · simp only [collect_anyTy, Bool.or_true, ite_true, if_true,
          Except.ok.injEq, Prod.mk.injEq] at hb
        obtain ⟨-, hst⟩ := hb
        subst hst
        exact mem_add_str_self _ _

/-- C7 (amended): whenever a parameter has an enum-member default, the
building of that parameter (however the annotation is classified) always
registers the enum's defining symbol in the module's import set; and for
every compatible, non-`str` annotation the produced descriptor renders the
default as the qualified member name `EnumName.MEMBER`.  (As stated, the
rendering half fails when the annotation is exactly `str`: the quote-wrapping
branch at line 224 fires first, see the counterexample.) -/
theorem c7_enum_default :
    (∀ (st : BuildState) (name : String) (ann : Option Ty) (en m emod vr : String)
       (p : Parameter) (st2 : BuildState),
       build_parameter st name ann (some (.enumMember en m emod vr)) = .ok (p, st2) →
       ("from " ++ emod ++ " import " ++ en) ∈ st2.string_imports) ∧
    (∀ (st : BuildState) (name : String) (t : Ty) (en m emod vr : String),
       is_incompatible t = COMPATIBLE → t.is_str = false →
       ∃ st2, build_parameter st name (some t) (some (.enumMember en m emod vr)) =
         .ok (⟨name, type_str t, en ++ "." ++ m⟩, st2) ∧
         ("from " ++ emod ++ " import " ++ en) ∈ st2.string_imports) :=
  ⟨c7_part_a, c7_part_b⟩

/-- Witness for C7 (amended): a parameter annotated with the enum `Color`
from module `palette` and defaulted to `Color.RED` renders the qualified
member name and registers `from palette import Color`. -/
theorem c7_witness :
    is_incompatible (.enumTy "Color" "palette") = COMPATIBLE ∧
    (Ty.enumTy "Color" "palette").is_str = false ∧
    ∃ st2, build_parameter ⟨[], []⟩ "p" (some (.enumTy "Color" "palette"))
        (some (.enumMember "Color" "RED" "palette" "1")) =
      .ok (⟨"p", type_str (.enumTy "Color" "palette"), "Color" ++ "." ++ "RED"⟩, st2) ∧
      ("from " ++ "palette" ++ " import " ++ "Color") ∈ st2.string_imports :=
  ⟨by rw [incompat_enumTy], rfl,
   c7_enum_default.2 ⟨[], []⟩ "p" (.enumTy "Color" "palette")
     "Color" "RED" "palette" "1" (by rw [incompat_enumTy]) rfl⟩

theorem class_keys_union_iff (l : List Ty) :
    class_keys_union l = true ↔ ∀ a ∈ l, class_keys a = true := by
  induction l with
  | nil => simp [class_keys_union]
  | cons a rest ih =>
    rw [class_keys_union, Bool.and_eq_true, ih]
    simp

theorem class_keys_resolve (t : Ty) (h : class_keys t = true) :
    class_keys (resolve_optional t).2 = true := by
  unfold resolve_optional
  cases t
  case unionTy ms =>
    have hall : ∀ a ∈ ms, class_keys a = true :=
      (class_keys_union_iff ms).1 (by simpa [class_keys] using h)
    by_cases hn : ms.any Ty.is_none_type
    · simp only [hn, if_true]
      split
      · next a heq =>
        exact hall a (List.mem_of_mem_filter
          (by rw [heq]; exact List.mem_singleton_self a))
      · simp [class_keys, class_keys_union]
      · simp only [class_keys]
        exact (class_keys_union_iff _).2
          (fun a ha => hall a (List.mem_of_mem_filter ha))
    · simp only [hn, Bool.false_eq_true, if_false]
      rcases ms with _ | ⟨a, _ | ⟨b, rest⟩⟩
      · simp [class_keys, class_keys_union]
      · exact hall a (List.mem_singleton_self a)
      · simpa [class_keys] using h
  all_goals exact h

mutual

theorem classkeys_res_total (s : Ty) (h : class_keys s = true) :
    ∃ b, incompat_resolved s = .ok b := by
  cases s
  case listTy e =>
    rw [incompat_resolved]
    exact classkeys_total e (by simpa [class_keys] using h)
  case dictTy k v =>
    rw [incompat_resolved]
    rw [class_keys, Bool.and_eq_true] at h
    obtain ⟨hk, hv⟩ := h
    have hsub : ∃ bb, issubclass_str_enum k = .ok bb := by
      cases k <;> first | exact ⟨_, rfl⟩ | simp [is_class_ty] at hk
    obtain ⟨bb, hbb⟩ := hsub
    rw [hbb]
    cases bb
    · exact ⟨true, rfl⟩
    · exact classkeys_total v hv
  case tupleTy args =>
    rw [incompat_resolved]
    exact classkeys_tuple_total args (by simpa [class_keys] using h)
  case typeOfTy a =>
    rw [incompat_resolved]
    exact classkeys_total a (by simpa [class_keys] using h)
  case ellipsisTy => simp [class_keys] at h
  case structuredTy n m legal =>
    cases legal
    · exact ⟨true, by rw [incompat_resolved]; simp [omegaconf_structured]⟩
    · exact ⟨false, by rw [incompat_resolved]; simp [omegaconf_structured]⟩
  all_goals exact ⟨_, by rw [incompat_resolved]⟩
termination_by 2 * sizeOf s
decreasing_by
  all_goals try subst_vars
  all_goals simp_arith

theorem classkeys_tuple_total (l : List Ty) (h : class_keys_tuple l = true) :
    ∃ b, tuple_any_incompat l = .ok b := by
  cases l with
  | nil => exact ⟨false, by rw [tuple_any_incompat]⟩
  | cons a rest =>
    rw [tuple_any_incompat]
    rw [class_keys_tuple, Bool.and_eq_true] at h
    obtain ⟨ha, hrest⟩ := h
    cases he : a.is_ellipsis
    · simp only [he, Bool.false_eq_true, if_false]
      have hca : class_keys a = true := by
        rw [he, Bool.false_or] at ha
        exact ha
      obtain ⟨b, hb⟩ := classkeys_total a hca
      rw [hb]
      cases b
      · exact classkeys_tuple_total rest hrest
      · exact ⟨true, rfl⟩
    · rw [if_pos rfl]
      exact classkeys_tuple_total rest hrest
termination_by 2 * sizeOf l
decreasing_by
  all_goals try subst_vars
  all_goals simp_arith

theorem classkeys_total (x : Ty) (h : class_keys x = true) :
    ∃ b, is_incompatible x = .ok b := by
  unfold is_incompatible
  exact classkeys_res_total (resolve_optional x).2 (class_keys_resolve x h)
termination_by 2 * sizeOf x + 1
decreasing_by
  have h1 := sizeOf_resolve_optional x
  omega

end

theorem builder_total (st : BuildState) (name : String) (ann : Option Ty)
    (dflt : Option PyVal)
    (h : ∀ t, ann = some t → ∃ b, is_incompatible t = .ok b) :
    ∃ r, build_parameter st name ann dflt = .ok r := by
  rcases ann with _ | t
  · rcases dflt with _ | v
    · unfold build_parameter
      simp only [Bind.bind, Except.bind, pure, Except.pure, type_of_val,
        collect_anyTy, COMPATIBLE, INCOMPATIBLE,
        Option.isNone_none, Option.isNone_some,
        Bool.or_true, Bool.true_or, Bool.or_false, Bool.false_or,
        Bool.false_eq_true, Bool.true_eq_false, ite_true, ite_false, if_true, if_false]
      exact ⟨_, rfl⟩
    · cases v <;>
        (unfold build_parameter
         simp only [Bind.bind, Except.bind, pure, Except.pure, type_of_val,
           incompat_strTy, incompat_intTy, incompat_floatTy, incompat_boolTy,
           incompat_noneType, incompat_bareList, incompat_bareDict,
           incompat_enumTy, incompat_userClass,
           collect_anyTy, COMPATIBLE, INCOMPATIBLE,
           Option.isNone_none, Option.isNone_some,
           Bool.or_true, Bool.true_or, Bool.or_false, Bool.false_or,
           Bool.false_eq_true, Bool.true_eq_false, ite_true, ite_false, if_true, if_false]
         exact ⟨_, rfl⟩)
  · obtain ⟨bt, hbt⟩ := h t rfl
    cases bt
    · obtain ⟨out, hout⟩ := compat_collect_ok t (by rw [COMPATIBLE]; exact hbt) st.imports
      rcases dflt with _ | v
      · unfold build_parameter
        simp only [Bind.bind, Except.bind, pure, Except.pure, type_of_val,
          hbt, hout, COMPATIBLE, INCOMPATIBLE,
          Option.isNone_none, Option.isNone_some,
          Bool.or_true, Bool.true_or, Bool.or_false, Bool.false_or,
          Bool.false_eq_true, Bool.true_eq_false, ite_true, ite_false, if_true, if_false]
        exact ⟨_, rfl⟩
      · cases v <;>
          (unfold build_parameter
           simp only [Bind.bind, Except.bind, pure, Except.pure, type_of_val,
             incompat_strTy, incompat_intTy, incompat_floatTy, incompat_boolTy,
             incompat_noneType, incompat_bareList, incompat_bareDict,
             incompat_enumTy, incompat_userClass,
             hbt, hout, COMPATIBLE, INCOMPATIBLE,
             Option.isNone_none, Option.isNone_some,
             Bool.or_true, Bool.true_or, Bool.or_false, Bool.false_or,
             Bool.false_eq_true, Bool.true_eq_false, ite_true, ite_false, if_true, if_false]
           exact ⟨_, rfl⟩)
    · rcases dflt with _ | v
      · unfold build_parameter
        simp only [Bind.bind, Except.bind, pure, Except.pure, type_of_val,
          hbt, collect_anyTy, COMPATIBLE, INCOMPATIBLE,
          Option.isNone_none, Option.isNone_some,
          Bool.or_true, Bool.true_or, Bool.or_false, Bool.false_or,
          Bool.false_eq_true, Bool.true_eq_false, ite_true, ite_false, if_true, if_false]
        exact ⟨_, rfl⟩
      · cases v <;>
          (unfold build_parameter
           simp only [Bind.bind, Except.bind, pure, Except.pure, type_of_val,
             incompat_strTy, incompat_intTy, incompat_floatTy, incompat_boolTy,
             incompat_noneType, incompat_bareList, incompat_bareDict,
             incompat_enumTy, incompat_userClass,
             hbt, collect_anyTy, COMPATIBLE, INCOMPATIBLE,
             Option.isNone_none, Option.isNone_some,
             Bool.or_true, Bool.true_or, Bool.or_false, Bool.false_or,
             Bool.false_eq_true, Bool.true_eq_false, ite_true, ite_false, if_true, if_false]
           exact ⟨_, rfl⟩)

/-- Counterexample for C8 as stated: the classifier is not total.  On
`Dict[List[int], str]` the `issubclass` key check receives the parameterized
generic `List[int]`, which is not a class, so `issubclass` raises `TypeError`;
the exception escapes `is_incompatible` and then escapes the per-parameter
loop of `generate_module`, so the builder raises for that parameter too. -/
theorem c8_counterexample :
    is_incompatible (.dictTy (.listTy .intTy) .strTy) = .error .typeError ∧
    build_parameter ⟨[], []⟩ "p" (some (.dictTy (.listTy .intTy) .strTy)) none =
      .error .typeError := by
  have h1 : is_incompatible (.dictTy (.listTy .intTy) .strTy) = .error .typeError := by
    rw [incompat_dictTy]
    rfl
  refine ⟨h1, ?_⟩
  unfold build_parameter
  simp only [Bind.bind, Except.bind, pure, Except.pure, h1,
    Option.isNone_none, Option.isNone_some]

/-- C8 (amended): on the class-keyed fragment (every mapping key reached by
the classifier's `issubclass` checks is an actual class and no bare
`Ellipsis` annotation occurs at a classified position) the classifier is
total — it returns a COMPATIBLE/INCOMPATIBLE verdict without raising — and
whenever the annotation's classification returns a verdict the per-parameter
builder never raises, in the worst case degrading to `Any` plus `MISSING`.
(As stated the claim fails: outside that fragment `issubclass` raises
`TypeError`, which escapes both the classifier and the builder — see the
counterexample.) -/
theorem c8_total_safe :
    (∀ t : Ty, class_keys t = true → ∃ b, is_incompatible t = .ok b) ∧
    (∀ (st : BuildState) (name : String) (ann : Option Ty) (dflt : Option PyVal),
      (∀ t, ann = some t → ∃ b, is_incompatible t = .ok b) →
      ∃ r, build_parameter st name ann dflt = .ok r) :=
  ⟨classkeys_total, builder_total⟩

/-- Witness for C8 (amended): `Dict[str, int]` is class-keyed, the
classifier yields a verdict on it, and building a parameter annotated with
it succeeds. -/
theorem c8_witness :
    class_keys (.dictTy .strTy .intTy) = true ∧
    (∃ b, is_incompatible (.dictTy .strTy .intTy) = .ok b) ∧
    ∃ r, build_parameter ⟨[], []⟩ "p" (some (.dictTy .strTy .intTy)) none = .ok r := by
  have hck : class_keys (.dictTy .strTy .intTy) = true := by
    simp [class_keys, is_class_ty]
  refine ⟨hck, c8_total_safe.1 _ hck, c8_total_safe.2 ⟨[], []⟩ "p" _ none ?_⟩
  intro t ht
  cases ht
  exact c8_total_safe.1 _ hck

theorem sorted_sort_strings (l : List String) :
    List.Sorted (· ≤ ·) (sort_strings l) :=
  List.sorted_insertionSort _ _

theorem sort_strings_congr_perm {l1 l2 : List String} (h : l1.Perm l2) :
    sort_strings l1 = sort_strings l2 :=
  List.eq_of_perm_of_sorted
    ((List.perm_insertionSort _ _).trans (h.trans (List.perm_insertionSort _ _).symm))
    (List.sorted_insertionSort _ _) (List.sorted_insertionSort _ _)

theorem mem_add_str_iff (l : List String) (y x : String) :
    x ∈ add_str l y ↔ x ∈ l ∨ x = y := by
  unfold add_str
  split
  · rename_i hy
    constructor
    · exact Or.inl
    · rintro (h1 | rfl)
      · exact h1
      · exact hy
  · simp [List.mem_append]

theorem mem_convert_fold (l : List ImportItem) (acc : List String) (x : String) :
    (x ∈ l.foldl (fun acc2 it =>
      match classname_line it with
      | some s => add_str acc2 s
      | none => acc2) acc) ↔
    x ∈ acc ∨ ∃ it ∈ l, classname_line it = some x := by
  induction l generalizing acc with
  | nil => simp
  | cons a rest ih =>
    rw [List.foldl_cons]
    cases hc : classname_line a
    · simp only [hc]
      rw [ih]
      simp only [List.mem_cons]
      constructor
      · rintro (h1 | ⟨it, hit, he⟩)
        · exact Or.inl h1
        · exact Or.inr ⟨it, Or.inr hit, he⟩
      · rintro (h1 | ⟨it, (rfl | hit), he⟩)
        · exact Or.inl h1
        · rw [hc] at he
          cases he
        · exact Or.inr ⟨it, hit, he⟩
    · rename_i s
      simp only [hc]
      rw [ih]
      simp only [mem_add_str_iff, List.mem_cons]
      constructor
      · rintro ((h1 | rfl) | ⟨it, hit, he⟩)
        · exact Or.inl h1
        · exact Or.inr ⟨a, Or.inl rfl, hc⟩
        · exact Or.inr ⟨it, Or.inr hit, he⟩
      · rintro (h1 | ⟨it, (rfl | hit), he⟩)
        · exact Or.inl (Or.inl h1)
        · rw [hc] at he
          injection he with h2
          exact Or.inl (Or.inr h2.symm)
        · exact Or.inr ⟨it, hit, he⟩

theorem convert_imports_congr_perm {imps1 imps2 : List ImportItem}
    {strs1 strs2 : List String} (hp : imps1.Perm imps2) (hs : strs1.Perm strs2) :
    convert_imports imps1 strs1 = convert_imports imps2 strs2 := by
  unfold convert_imports
  apply sort_strings_congr_perm
  apply (List.perm_ext_iff_of_nodup (List.nodup_dedup _) (List.nodup_dedup _)).mpr
  intro x
  simp only [List.mem_dedup, List.mem_append, mem_convert_fold, List.not_mem_nil, false_or]
  constructor
  · rintro (⟨it, hit, he⟩ | hx)
    · exact Or.inl ⟨it, hp.mem_iff.mp hit, he⟩
    · exact Or.inr (hs.mem_iff.mp hx)
  · rintro (⟨it, hit, he⟩ | hx)
    · exact Or.inl ⟨it, hp.mem_iff.mpr hit, he⟩
    · exact Or.inr (hs.mem_iff.mpr hx)

theorem perm_any_eq {l1 l2 : List Ty} (h : l1.Perm l2) (f : Ty → Bool) :
    l1.any f = l2.any f := by
  cases h1 : l1.any f <;> cases h2 : l2.any f <;> try rfl
  · obtain ⟨a, ha, hf⟩ := List.any_eq_true.mp h2
    rw [List.any_eq_true.mpr ⟨a, h.mem_iff.mpr ha, hf⟩] at h1
    cases h1
  · obtain ⟨a, ha, hf⟩ := List.any_eq_true.mp h1
    rw [List.any_eq_true.mpr ⟨a, h.mem_iff.mp ha, hf⟩] at h2
    cases h2

theorem attach_map_type_str (l : List Ty) :
    (l.attach.map fun x => type_str x.1) = l.map type_str := by
  simp

theorem type_str_resolved_union (b : Bool) (ms : List Ty) :
    type_str_resolved b (.unionTy ms) =
      (if b then
        "Optional[" ++ ("Union[" ++ String.intercalate ", "
          (sort_strings (ms.map type_str)) ++ "]") ++ "]"
       else "Union[" ++ String.intercalate ", "
          (sort_strings (ms.map type_str)) ++ "]") := by
  rw [type_str_resolved]
  simp only [Ty.is_any, Ty.is_ellipsis, Bool.false_eq_true, if_false,
    attach_map_type_str]

theorem type_str_union_congr_perm {ms1 ms2 : List Ty} (hp : ms1.Perm ms2) :
    type_str (.unionTy ms1) = type_str (.unionTy ms2) := by
  have hany := perm_any_eq hp Ty.is_none_type
  by_cases hn : ms1.any Ty.is_none_type
  · have hn2 : ms2.any Ty.is_none_type = true := by rw [← hany]; exact hn
    have hpf : (ms1.filter fun a => !a.is_none_type).Perm
        (ms2.filter fun a => !a.is_none_type) := hp.filter _
    unfold type_str
    rcases hflt1 : ms1.filter fun a => !a.is_none_type with _ | ⟨x1, _ | ⟨y1, r1⟩⟩
    · have hflt2 : (ms2.filter fun a => !a.is_none_type) = [] := by
        rw [hflt1] at hpf
        exact hpf.symm.eq_nil
      simp only [resolve_optional, hn, hn2, if_true, hflt1, hflt2]
    · have hflt2 : (ms2.filter fun a => !a.is_none_type) = [x1] := by
        rw [hflt1] at hpf
        exact List.perm_singleton.mp hpf.symm
      simp only [resolve_optional, hn, hn2, if_true, hflt1, hflt2]
    · rw [hflt1] at hpf
      rcases hflt2 : ms2.filter fun a => !a.is_none_type with _ | ⟨x2, _ | ⟨y2, r2⟩⟩
      · rw [hflt2] at hpf
        have := hpf.length_eq
        simp at this
      · rw [hflt2] at hpf
        have := hpf.length_eq
        simp at this
      · rw [hflt2] at hpf
        simp only [resolve_optional, hn, hn2, if_true, hflt1, hflt2]
        rw [type_str_resolved_union, type_str_resolved_union,
          sort_strings_congr_perm (hpf.map type_str)]
  · have hn1 : ms1.any Ty.is_none_type = false := by
      cases h : ms1.any Ty.is_none_type
      · rfl
      · exact absurd h hn
    have hn2 : ms2.any Ty.is_none_type = false := by rw [← hany]; exact hn1
    rcases ms1 with _ | ⟨a1, _ | ⟨b1, r1⟩⟩
    · rw [hp.symm.eq_nil]
    · rw [List.perm_singleton.mp hp.symm]
    · rcases ms2 with _ | ⟨a2, _ | ⟨b2, r2⟩⟩
      · have := hp.length_eq
        simp at this
      · have := hp.length_eq
        simp at this
      · unfold type_str
        simp only [resolve_optional, hn1, hn2, Bool.false_eq_true, if_false]
        rw [type_str_resolved_union, type_str_resolved_union,
          sort_strings_congr_perm (hp.map type_str)]

/-- C9: generation is deterministic and order-insensitive.  The final import
list is lexicographically sorted; it depends on the collected import set and
string-import set only up to reordering (so two runs over the same sets,
however the underlying Python set iteration enumerates them, produce
byte-identical output); and a Union renders identically under any
permutation of its members, since the rendered member names are sorted. -/
theorem c9_deterministic_sorted :
    (∀ (imps : List ImportItem) (strs : List String),
       List.Sorted (· ≤ ·) (convert_imports imps strs)) ∧
    (∀ (imps1 imps2 : List ImportItem) (strs1 strs2 : List String),
       imps1.Perm imps2 → strs1.Perm strs2 →
       convert_imports imps1 strs1 = convert_imports imps2 strs2) ∧
    (∀ ms1 ms2 : List Ty, ms1.Perm ms2 →
       type_str (.unionTy ms1) = type_str (.unionTy ms2)) :=
  ⟨fun _ _ => sorted_sort_strings _,
   fun _ _ _ _ hp hs => convert_imports_congr_perm hp hs,
   fun _ _ hp => type_str_union_congr_perm hp⟩

/-- Witness for C9: swapping the two members of a concrete import set leaves
`convert_imports` unchanged, and swapping the members of `Union[int, str]`
leaves its rendering unchanged. -/
theorem c9_witness :
    convert_imports [.ty .pathTy, .optionalForm] ["from omegaconf import MISSING"] =
      convert_imports [.optionalForm, .ty .pathTy] ["from omegaconf import MISSING"] ∧
    type_str (.unionTy [.intTy, .strTy]) = type_str (.unionTy [.strTy, .intTy]) :=
  ⟨c9_deterministic_sorted.2.1 _ _ _ _ (List.Perm.swap _ _ _) (List.Perm.refl _),
   c9_deterministic_sorted.2.2 _ _ (List.Perm.swap _ _ _)⟩

theorem is_str_pathTy_eq : Ty.pathTy.is_str = false := rfl

/-- C10: the bare classes `NoneType`, `tuple`, `list`, `dict` and
`pathlib.Path` are classified COMPATIBLE by the line-105 membership test,
although `Path` is not among the spec's primitive types; a `Path`-typed
parameter with no default keeps `Path` as its recorded type (no degrade to
`Any`), records the `MISSING` sentinel, registers the `Path` class in
the import set, and `convert_imports` renders that as a pathlib line
in the sorted import list. -/
theorem c10_bare_and_path :
    is_incompatible .noneType = COMPATIBLE ∧
    is_incompatible .bareTuple = COMPATIBLE ∧
    is_incompatible .bareList = COMPATIBLE ∧
    is_incompatible .bareDict = COMPATIBLE ∧
    is_incompatible .pathTy = COMPATIBLE ∧
    build_parameter ⟨[], []⟩ "p" (some .pathTy) none =
      .ok (⟨"p", "Path", "MISSING"⟩,
        ⟨[.ty .pathTy], ["from omegaconf import MISSING"]⟩) ∧
    convert_imports [.ty .pathTy] ["from omegaconf import MISSING"] =
      ["from omegaconf import MISSING", "from pathlib import Path"] := by
  refine ⟨incompat_noneType, incompat_bareTuple, incompat_bareList, incompat_bareDict,
    incompat_pathTy, ?_, ?_⟩
  · unfold build_parameter
    simp only [Bind.bind, Except.bind, pure, Except.pure,
      incompat_pathTy, collect_pathTy, COMPATIBLE,
      Option.isNone_none, Option.isNone_some, is_str_pathTy_eq, type_str_pathTy,
      Bool.or_true, Bool.true_or, Bool.or_false, Bool.false_or,
      Bool.false_eq_true, Bool.true_eq_false, ite_true, ite_false, if_true, if_false,
      str_of_opt_default, str_of_default, add_item_nil]
    rfl
  · have harg : (([.ty .pathTy].foldl (fun acc2 it =>
        match classname_line it with
        | some s => add_str acc2 s
        | none => acc2) [] ++ ["from omegaconf import MISSING"]).dedup) =
        ["from pathlib import Path", "from omegaconf import MISSING"] := by
      decide
    have hle : ¬(("from pathlib import Path" : String) ≤ "from omegaconf import MISSING") := by
      rw [String.le_iff_toList_le]
      decide
    simp only [convert_imports]
    rw [harg]
    unfold sort_strings
    simp [List.insertionSort, List.orderedInsert, hle]
